import Mathlib

/-!
GencGirisimciler: the checklist store and the petition generator of `src/app.js`.

A shallow embedding of the two classes `ChecklistManager` and `PetitionGenerator`
of `src/app.js` together with the parts of the JavaScript platform they call
(string trimming, a regular-expression test, `Date`, `Number` arithmetic), followed
by theorems about them.

JavaScript strings are modelled by Lean strings, i.e. sequences of Unicode scalar
values (a lone surrogate code unit has no counterpart).  None of the operations used
below (`trim`, `split('-')`, the test `/^\d{11}$/`, concatenation) distinguishes the
two representations.
-/

namespace GencGirisimciler

/-! ## Strings -/

/-- The code points that `String.prototype.trim` removes: ECMAScript `WhiteSpace`
(TAB, VT, FF, ZWNBSP and the Unicode category Zs) and `LineTerminator`
(LF, CR, LS, PS). -/
def isJSWhiteSpace (c : Char) : Bool :=
  let n := c.toNat
  n == 0x09 || n == 0x0A || n == 0x0B || n == 0x0C || n == 0x0D || n == 0x20 ||
  n == 0xA0 || n == 0x1680 || (0x2000 ≤ n && n ≤ 0x200A) || n == 0x2028 ||
  n == 0x2029 || n == 0x202F || n == 0x205F || n == 0x3000 || n == 0xFEFF

/-- `trim` on the list of characters: white space is dropped at the front, then at
the back. -/
def trimChars (cs : List Char) : List Char :=
  ((cs.dropWhile isJSWhiteSpace).reverse.dropWhile isJSWhiteSpace).reverse

/-- `String.prototype.trim`. -/
def jsTrim (s : String) : String := String.mk (trimChars s.toList)

/-- The matcher of `/^\d{n}$/` started at the beginning of the input: `n` characters
of the class `\d` (which, without the `u`/`v` flag semantics changing it, is exactly
`0`-`9`) and then the end of the input (`$` without the `m` flag). -/
def matchDigitsThenEnd : Nat → List Char → Bool
  | 0, [] => true
  | 0, _ :: _ => false
  | _ + 1, [] => false
  | n + 1, c :: cs => c.isDigit && matchDigitsThenEnd n cs

/-- `/^\d{11}$/.test(s)`. -/
def testElevenDigits (s : String) : Bool := matchDigitsThenEnd 11 s.toList

/-! ## The host: what the embedding takes from the JavaScript platform -/

/-- The parts of the platform that the program reaches through built-ins and that
are not fixed by the program text. -/
structure Host where
  /-- Offset of local time from UTC in milliseconds (`LocalTZA`), for a zone with
  a constant offset: `10800000` for UTC+03:00. -/
  localTZA : Int
  /-- `Date.parse` on the inputs that are not a date-only string `YYYY-MM-DD` naming
  a calendar date (other forms of the date-time format and the implementation-defined
  fallback); `none` is `NaN`. -/
  dateParseOther : String → Option Int
  /-- `String.prototype.toUpperCase`. -/
  toUpperCase : String → String

/-! ## Numbers that are integers or NaN -/

/-- `String(x)` (also `${x}`) for a Number that is NaN (`none`) or an integer below
`10^21` in absolute value. -/
def numberToString : Option Int → String
  | none => "NaN"
  | some n => toString n

/-- `s.padStart(2, '0')`. -/
def padStart2 (s : String) : String :=
  String.mk (List.replicate (2 - s.length) '0') ++ s

/-! ## `Date`, after ECMA-262 section 21.4.1 -/

namespace JSDate

/-- Milliseconds per day. -/
def msPerDay : Int := 86400000

/-- `Day(t)`. -/
def day (t : Int) : Int := t / msPerDay

/-- `TimeWithinDay(t)`. -/
def timeWithinDay (t : Int) : Int := t % msPerDay

/-- `DaysInYear(y)`. -/
def daysInYear (y : Int) : Int :=
  if y % 4 ≠ 0 then 365
  else if y % 100 ≠ 0 then 366
  else if y % 400 ≠ 0 then 365
  else 366

/-- `DayFromYear(y)`: the day number of the first day of year `y`. -/
def dayFromYear (y : Int) : Int :=
  365 * (y - 1970) + (y - 1969) / 4 - (y - 1901) / 100 + (y - 1601) / 400

/-- The year containing day number `d`: the largest `y` with `dayFromYear y ≤ d`,
found from the estimate `1970 + ⌊400 d / 146097⌋`, which is off by at most one. -/
def yearFromDay (d : Int) : Int :=
  let y := 1970 + (400 * d) / 146097
  if dayFromYear (y + 1) ≤ d then y + 1
  else if dayFromYear y ≤ d then y
  else y - 1

/-- `YearFromTime(t)`. -/
def yearFromTime (t : Int) : Int := yearFromDay (day t)

/-- `InLeapYear(t)`. -/
def inLeapYear (t : Int) : Int := if daysInYear (yearFromTime t) = 366 then 1 else 0

/-- `DayWithinYear(t)`. -/
def dayWithinYear (t : Int) : Int := day t - dayFromYear (yearFromTime t)

/-- `MonthFromTime(t)`, January being `0`. -/
def monthFromTime (t : Int) : Int :=
  let d := dayWithinYear t
  let l := inLeapYear t
  if d < 31 then 0
  else if d < 59 + l then 1
  else if d < 90 + l then 2
  else if d < 120 + l then 3
  else if d < 151 + l then 4
  else if d < 181 + l then 5
  else if d < 212 + l then 6
  else if d < 243 + l then 7
  else if d < 273 + l then 8
  else if d < 304 + l then 9
  else if d < 334 + l then 10
  else 11

/-- `DateFromTime(t)`: the day of the month, from `1`. -/
def dateFromTime (t : Int) : Int :=
  let d := dayWithinYear t
  let l := inLeapYear t
  let m := monthFromTime t
  if m = 0 then d + 1
  else if m = 1 then d - 30
  else if m = 2 then d - 58 - l
  else if m = 3 then d - 89 - l
  else if m = 4 then d - 119 - l
  else if m = 5 then d - 150 - l
  else if m = 6 then d - 180 - l
  else if m = 7 then d - 211 - l
  else if m = 8 then d - 242 - l
  else if m = 9 then d - 272 - l
  else if m = 10 then d - 303 - l
  else d - 333 - l

/-- Days of year `y` that lie before the first day of month `m` (`0`-`11`). -/
def daysBeforeMonth (y m : Int) : Int :=
  let l := if daysInYear y = 366 then 1 else 0
  if m = 0 then 0
  else if m = 1 then 31
  else if m = 2 then 59 + l
  else if m = 3 then 90 + l
  else if m = 4 then 120 + l
  else if m = 5 then 151 + l
  else if m = 6 then 181 + l
  else if m = 7 then 212 + l
  else if m = 8 then 243 + l
  else if m = 9 then 273 + l
  else if m = 10 then 304 + l
  else 334 + l

/-- `MakeDay(year, month, date)` for integral arguments: the day number of the first
of the month `month mod 12` of the year `year + ⌊month / 12⌋`, plus `date - 1`. -/
def makeDay (year month date : Int) : Int :=
  let ym := year + month / 12
  let mn := month % 12
  dayFromYear ym + daysBeforeMonth ym mn + date - 1

/-- `MakeDate(day, time)`. -/
def makeDate (day time : Int) : Int := day * msPerDay + time

/-- `TimeClip(time)`; `none` is `NaN`. -/
def timeClip (t : Option Int) : Option Int :=
  match t with
  | none => none
  | some v => if v.natAbs > 8640000000000000 then none else some v

/-- `LocalTime(t)`. -/
def localTime (h : Host) (t : Int) : Int := t + h.localTZA

/-- `UTC(t)`. -/
def utc (h : Host) (t : Int) : Int := t - h.localTZA

/-- Value of a decimal digit character. -/
def digitValue (c : Char) : Int := (c.toNat : Int) - 48

/-- Number of days of month `m` (`1`-`12`) of year `y`. -/
def daysInMonth (y m : Int) : Int :=
  if m = 2 then (if daysInYear y = 366 then 29 else 28)
  else if m = 4 ∨ m = 6 ∨ m = 9 ∨ m = 11 then 30
  else 31

/-- Reads a date-only string of the date-time string format, `YYYY-MM-DD`, that names
a calendar date; gives the year, the month (`1`-`12`) and the day. -/
def parseIsoDate (s : String) : Option (Int × Int × Int) :=
  match s.toList with
  | [y1, y2, y3, y4, '-', m1, m2, '-', d1, d2] =>
    if y1.isDigit && y2.isDigit && y3.isDigit && y4.isDigit && m1.isDigit && m2.isDigit
        && d1.isDigit && d2.isDigit then
      let y := 1000 * digitValue y1 + 100 * digitValue y2 + 10 * digitValue y3 + digitValue y4
      let m := 10 * digitValue m1 + digitValue m2
      let d := 10 * digitValue d1 + digitValue d2
      if 1 ≤ m ∧ m ≤ 12 ∧ 1 ≤ d ∧ d ≤ daysInMonth y m then some (y, m, d) else none
    else none
  | _ => none

/-- `Date.parse(s)`: a date-only string is midnight UTC of that date. -/
def parse (h : Host) (s : String) : Option Int :=
  match parseIsoDate s with
  | some (y, m, d) => some (makeDate (makeDay y (m - 1) d) 0)
  | none => h.dateParseOther s

/-- `new Date(s)` for a string `s`: the time value of the new object. -/
def ofString (h : Host) (s : String) : Option Int := timeClip (parse h s)

/-- `getFullYear()`. -/
def getFullYear (h : Host) (tv : Option Int) : Option Int :=
  tv.map fun t => yearFromTime (localTime h t)

/-- `getMonth()`. -/
def getMonth (h : Host) (tv : Option Int) : Option Int :=
  tv.map fun t => monthFromTime (localTime h t)

/-- `getDate()`. -/
def getDate (h : Host) (tv : Option Int) : Option Int :=
  tv.map fun t => dateFromTime (localTime h t)

/-- `setFullYear(year)` with one argument: the new time value. -/
def setFullYear (h : Host) (tv : Option Int) (year : Option Int) : Option Int :=
  let t : Int := match tv with
    | none => 0
    | some v => localTime h v
  match year with
  | none => none
  | some y =>
    let newDate := makeDate (makeDay y (monthFromTime t) (dateFromTime t)) (timeWithinDay t)
    timeClip (some (utc h newDate))

end JSDate

/-- Splits a list of characters at every occurrence of `sep`. -/
def splitChars (sep : Char) : List Char → List (List Char)
  | [] => [[]]
  | c :: cs =>
    if c = sep then [] :: splitChars sep cs
    else
      match splitChars sep cs with
      | [] => [[c]]
      | p :: ps => (c :: p) :: ps

/-- The value of a destructured array element inside a template literal: a missing
element is `undefined`. -/
def templateElement (parts : List (List Char)) (i : Nat) : String :=
  match parts.get? i with
  | some p => String.mk p
  | none => "undefined"

/-! ## The petition form -/

/-- The record produced by `getFormData`: fourteen strings (each is the value of the
input element, or `''` when the element or its value is missing). -/
structure FormData where
  fullName : String
  tckn : String
  address : String
  sgkCity : String
  sgkDistrict : String
  workCity : String
  workDistrict : String
  profession : String
  startDate : String
  applicationDate : String
  approvalDate : String
  taxOffice : String
  debtAmount : String
  petitionDate : String
  deriving DecidableEq, Repr

/-- Property access `data[field]`; `none` stands for `undefined`. -/
def FormData.get (data : FormData) (field : String) : Option String :=
  if field = "fullName" then some data.fullName
  else if field = "tckn" then some data.tckn
  else if field = "address" then some data.address
  else if field = "sgkCity" then some data.sgkCity
  else if field = "sgkDistrict" then some data.sgkDistrict
  else if field = "workCity" then some data.workCity
  else if field = "workDistrict" then some data.workDistrict
  else if field = "profession" then some data.profession
  else if field = "startDate" then some data.startDate
  else if field = "applicationDate" then some data.applicationDate
  else if field = "approvalDate" then some data.approvalDate
  else if field = "taxOffice" then some data.taxOffice
  else if field = "debtAmount" then some data.debtAmount
  else if field = "petitionDate" then some data.petitionDate
  else none

namespace PetitionGenerator

/-- The constant `requiredFields` of `validateForm`. -/
def requiredFields : List String :=
  ["fullName", "tckn", "address", "sgkCity", "sgkDistrict",
   "workCity", "workDistrict", "profession", "startDate",
   "applicationDate", "approvalDate", "taxOffice", "debtAmount", "petitionDate"]

/-- The condition `!data[field] || data[field].trim() === ''` of the loop in
`validateForm`: `undefined` and `''` are falsy. -/
def fieldMissing (v : Option String) : Bool :=
  match v with
  | none => true
  | some s => s == "" || jsTrim s == ""

/-- The loop `for (const field of requiredFields)` of `validateForm`; `true` when
the loop body executes `return false`. -/
def requiredLoopFails (data : FormData) : List String → Bool
  | [] => false
  | field :: rest =>
    if fieldMissing (data.get field) then true else requiredLoopFails data rest

/-- The text of the `alert` of `validateForm`. -/
def tcknAlert : String := "TC Kimlik No 11 haneli olmalıdır."

/-- `validateForm(data)`: the returned boolean and the alerts shown on the way. -/
def validateForm (data : FormData) : Bool × List String :=
  if requiredLoopFails data requiredFields then (false, [])
  else if !testElevenDigits data.tckn then (false, [tcknAlert])
  else (true, [])

/-- `formatDate(dateStr)`. -/
def formatDate (dateStr : String) : String :=
  if dateStr = "" then ""
  else
    let parts := splitChars '-' dateStr.toList
    let year := templateElement parts 0
    let month := templateElement parts 1
    let day := templateElement parts 2
    day ++ "." ++ month ++ "." ++ year

/-- `calculateEndDate(startDateStr)`. -/
def calculateEndDate (h : Host) (startDateStr : String) : String :=
  if startDateStr = "" then ""
  else
    let date := JSDate.ofString h startDateStr
    let date := JSDate.setFullYear h date ((JSDate.getFullYear h date).map (· + 1))
    let day := padStart2 (numberToString (JSDate.getDate h date))
    let month := padStart2 (numberToString ((JSDate.getMonth h date).map (· + 1)))
    let year := JSDate.getFullYear h date
    day ++ "." ++ month ++ "." ++ numberToString year

/-- The lines of the template literal of `generateSGKPetition`, each with its line
break. -/
def petitionLines (h : Host) (data : FormData) : List String :=
  let startDateFormatted := formatDate data.startDate
  let endDateFormatted := calculateEndDate h data.startDate
  let applicationDateFormatted := formatDate data.applicationDate
  let approvalDateFormatted := formatDate data.approvalDate
  let petitionDateFormatted := formatDate data.petitionDate
  [
    "SOSYAL GÜVENLİK KURUMU BAŞKANLIĞI\n",
    h.toUpperCase data.sgkCity ++ " " ++ h.toUpperCase data.sgkDistrict ++ " SOSYAL GÜVENLİK MÜDÜRLÜĞÜNE\n",
    "\n",
    "AD SOYAD : " ++ h.toUpperCase data.fullName ++ "\n",
    "TCKN : " ++ data.tckn ++ "\n",
    "ADRES : " ++ data.address ++ "\n",
    "\n",
    "KONU : Hukuka aykırı olarak tahakkuk ettirilen prim borcunun geri alınması ve Genç Girişimci Desteğinin " ++ endDateFormatted ++ " tarihine kadar devamı hususunda talepleri içerir dilekçedir.\n",
    "\n",
    data.workCity ++ " " ++ data.workDistrict ++ "'de " ++ startDateFormatted ++ " tarihinden beri " ++ data.profession ++ " mesleğini icra etmekteyim. İlgili şartları sağladığım için " ++ applicationDateFormatted ++ " Genç Girişimcilerde Kazanç İstisnası programına başvurdum ve " ++ data.taxOffice ++ " tarafından " ++ approvalDateFormatted ++ " tarihinde tarafıma tebliğ edilen:\n",
    "\n",
    "'İlgi dilekçenize istinaden dairemiz kayıtları tetkik edildiğinde; " ++ data.tckn ++ " T.C kimlik numarası ile " ++ startDateFormatted ++ " tarihinden itibaren dairemiz mükellefi olduğunuz ve 193 Sayılı Gelir Vergisi Kanunu'nun mükerrer 20. maddesindeki \"Genç Girişimcilerde Kazanç İstisnası \" şartlarını taşıdığınız görülmüştür.'\n",
    "\n",
    "şeklindeki kabul yazısını " ++ data.sgkDistrict ++ " SGK müdürlüğüne ibraz etmem akabinde ilgili genç girişimci desteğinden yararlanmaya başladım.\n",
    "\n",
    "Genç girişimci desteğim devam etmekte iken 04/12/2025 tarihinde kabul edilen 7566 sayılı kanunun 23.Maddesi ile 5510 sayılı Kanunun 81 inci maddesinin birinci fıkrasının (k) bendi yürürlükten kaldırılmıştır.\n",
    "\n",
    "İlgili kanunun mülga bendi aynen şöyledir:\n",
    "\n",
    "\"31/12/1960 tarihli ve 193 sayılı Gelir Vergisi Kanununun mükerrer 20 nci maddesi kapsamında genç girişimcilerde kazanç istisnasından faydalanan ve mükellefiyet başlangıç tarihi itibarıyla 18 yaşını doldurmuş ve 29 yaşını doldurmamış olanlardan, bu Kanunun 4 üncü maddesinin birinci fıkrasının (b) bendinin (1) numaralı alt bendi kapsamında 1/6/2018 tarihinden itibaren ilk defa sigortalı sayılan gerçek kişilerin primleri, 1 yıl süreyle 82 nci madde uyarınca belirlenen prime esas kazanç alt sınır üzerinden Hazinece karşılanır. Adi ortaklıklar ve şahıs şirket ortaklıklarında sadece bir ortak bu fıkra hükmünden yararlandırılır.\"\n",
    "\n",
    "Kanun hükmünden de anlaşıldığı üzere şartları sağlayan gerçek kişilerin sigorta primleri 1 yıl süreyle devletçe karşılanmaktadır. Sigorta prim desteği 1 takvim yılı değil, 12 aylık süreyle uygulanmaktadır.\n",
    "\n",
    "İlgili kanun 01.01.2026 tarihinde yürürlüğe girecek ve bu tarihten sonra yapılacak olan başvuruları kapsayacak şekilde Genç Girişimci Desteği kaldırılmıştır. Ancak normal şartlarda mesleğe başladığım tarih olan " ++ startDateFormatted ++ " tarihinden 1 yıl sonrası olan " ++ endDateFormatted ++ " tarihine kadar devam etmesi gereken Genç Girişimci Desteği 01.01.2026 tarihinde sona erdirilmiş ve tarafıma " ++ data.debtAmount ++ " TL tutarında prim borcu yansıtılmıştır.\n",
    "\n",
    "Bu durum konu itibariyle hukuka aykırılık teşkil etmektedir. Ayrıca Anayasamızın 2.Maddesinde güvence altına alınan hukuk devleti ilkesinin en temel dayanaklarından birisi olan kazanılmış haklara saygı ilkesini ihlal etmiştir.\n",
    "\n",
    "Tüm bu nedenlerle ilgili hukuka aykırı prim borcu tahakkuku işleminin baştan itibaren geri alınması ve desteğin sona ereceği tarih olan " ++ endDateFormatted ++ " tarihine kadar ilgili sigorta prim desteğinin devam ettirilmesi gerekmektedir.\n",
    "\n",
    "TALEP VE SONUÇ:\n",
    "1) Hukuka aykırı prim borcu tahakkukunun baştan itibaren GERİ ALINMASI,\n",
    "2) Mülga edilen kanun bendinde belirtilen 1 yıllık sürenin bitimi olan " ++ endDateFormatted ++ " tarihine kadar sigorta primlerimin ÖDENMESİNE DEVAM EDİLMESİ'ni talep ediyorum.\n",
    "\n",
    petitionDateFormatted ++ "\n",
    "\n",
    "Ekler:\n",
    "EK1 - Genç Girişimcilerde Kazanç İstisnası şartlarını taşıdığıma dair Vergi dairesi üst yazısı\n",
    "EK2 - Haksız olarak tahakkuk ettirilen " ++ data.debtAmount ++ " TL tutarındaki prim borcunu gösterir görsel\n",
    "\n",
    data.fullName
  ]

/-- `generateSGKPetition(data)`. -/
def generateSGKPetition (h : Host) (data : FormData) : String :=
  String.join (petitionLines h data)

/-- The text of the `alert` of `generate`. -/
def fillAllAlert : String := "Lütfen tüm alanları doldurun."

end PetitionGenerator

/-- The instance state of `PetitionGenerator`. -/
structure PetitionGenerator where
  currentPetitionType : String
  generatedText : String
  deriving DecidableEq, Repr

namespace PetitionGenerator

/-- The `constructor`. -/
def new : PetitionGenerator := { currentPetitionType := "sgk", generatedText := "" }

/-- What a call of `generate` yields: the returned value (`none` is `null`), the
instance afterwards and the alerts shown. -/
structure GenerateResult where
  returned : Option String
  self : PetitionGenerator
  alerts : List String
  deriving DecidableEq, Repr

/-- `generate(type)`, with `data` the record that `getFormData()` reads from the
form at the time of the call. -/
def generate (h : Host) (self : PetitionGenerator) (type : String) (data : FormData) :
    GenerateResult :=
  let v := validateForm data
  if !v.1 then
    { returned := none, self := self, alerts := v.2 ++ [fillAllAlert] }
  else
    let self := { self with currentPetitionType := type }
    let self :=
      if type = "sgk" then { self with generatedText := generateSGKPetition h data }
      else { self with generatedText := generateSGKPetition h data }
    { returned := some self.generatedText, self := self, alerts := v.2 }

/-- A sequence of `generate` calls, each with its type and the form contents at that
time; gives the instance after the last call. -/
def generateAll (h : Host) (self : PetitionGenerator) :
    List (String × FormData) → PetitionGenerator
  | [] => self
  | (type, data) :: rest => generateAll h (generate h self type data).self rest

end PetitionGenerator

/-! ## Numbers: binary64 arithmetic on the non-negative values that `getStats` meets -/

namespace Float64

/-- A non-negative finite value `mant * 2 ^ exp`. -/
structure Value where
  mant : Nat
  exp : Int
  deriving DecidableEq, Repr

/-- The integer nearest to `num / den`, a tie going to the even neighbour. -/
def roundHalfEven (num den : Nat) : Nat :=
  let q := num / den
  let r := num % den
  if 2 * r < den then q
  else if den < 2 * r then q + 1
  else if q % 2 = 0 then q
  else q + 1

/-- Number of binary digits of `n`, by halving at most `fuel` times. -/
def bitLengthAux : Nat → Nat → Nat
  | 0, _ => 0
  | fuel + 1, n => if n = 0 then 0 else bitLengthAux fuel (n / 2) + 1

/-- Number of binary digits of `n` (`0` for `0`); `n` halvings always suffice. -/
def bitLength (n : Nat) : Nat := bitLengthAux n n

/-- The integer `e` with `2 ^ e ≤ a / b < 2 ^ (e + 1)`, for positive `a` and `b`. -/
def floorLog2 (a b : Nat) : Int :=
  let la := bitLength a
  let lb := bitLength b
  if lb ≤ la then
    if b * 2 ^ (la - lb) ≤ a then ((la - lb : Nat) : Int) else ((la - lb : Nat) : Int) - 1
  else
    if b ≤ a * 2 ^ (lb - la) then -((lb - la : Nat) : Int) else -((lb - la : Nat) : Int) - 1

/-- The binary64 value nearest to the rational `a / b` (`b` positive), ties to even:
the quotient is scaled into `[2 ^ 52, 2 ^ 53)` and rounded to an integer there.  The
exponent range of binary64 is not modelled; the values met here are far inside it. -/
def round53 (a b : Nat) : Value :=
  if a = 0 then { mant := 0, exp := 0 }
  else
    let s : Int := 52 - floorLog2 a b
    if 0 ≤ s then { mant := roundHalfEven (a * 2 ^ s.toNat) b, exp := -s }
    else { mant := roundHalfEven a (b * 2 ^ (-s).toNat), exp := -s }

/-- The Number quotient `c / t` of two integers that are exact as Numbers, `t` positive. -/
def divNat (c t : Nat) : Value := round53 c t

/-- The Number product `x * k` for an integer `k` that is exact as a Number. -/
def mulNat (x : Value) (k : Nat) : Value :=
  if 0 ≤ x.exp then round53 (x.mant * k * 2 ^ x.exp.toNat) 1
  else round53 (x.mant * k) (2 ^ (-x.exp).toNat)

/-- `Math.round(x)` for non-negative `x`: the integer `⌊x + 1/2⌋`. -/
def mathRound (x : Value) : Nat :=
  if 0 ≤ x.exp then x.mant * 2 ^ x.exp.toNat
  else (2 * x.mant + 2 ^ (-x.exp).toNat) / (2 * 2 ^ (-x.exp).toNat)

/-- `Math.round((c / t) * 100)` for integers `c` and positive `t`. -/
def percentOf (c t : Nat) : Nat := mathRound (mulNat (divNat c t) 100)

end Float64

/-! ## JavaScript values and the checklist state -/

/-- The JavaScript values that can sit in the checklist state.  Numbers are represented
by integers, which is enough to tell the falsy `0` from the truthy rest; `object` is any
object (array, plain object, function), whose contents the program never inspects. -/
inductive JSValue
  | undefined
  | null
  | bool (b : Bool)
  | number (n : Int)
  | string (s : String)
  | object
  deriving DecidableEq, Repr

/-- `ToBoolean(v)`, which is what `!v` negates. -/
def JSValue.toBoolean : JSValue → Bool
  | .undefined => false
  | .null => false
  | .bool b => b
  | .number n => n != 0
  | .string s => s != ""
  | .object => true

/-- `v === true`. -/
def JSValue.strictEqualsTrue : JSValue → Bool
  | .bool true => true
  | _ => false

/-- An ordinary object whose prototype is `Object.prototype`, as `{}` and `JSON.parse`
of an object text create it: the list holds its own properties (all of them writable
data properties), in creation order.  JavaScript enumerates integer-like keys before
the others; the program only counts the values, which no order affects. -/
abbrev JSObject := List (String × JSValue)

/-- The function-valued members that an ordinary object inherits from
`Object.prototype` (ECMA-262 section 20.1.3 and Annex B.2.2), the prototype being as
the platform provides it. -/
def objectPrototypeMethods : List String :=
  ["constructor", "hasOwnProperty", "isPrototypeOf", "propertyIsEnumerable",
   "toLocaleString", "toString", "valueOf", "__defineGetter__", "__defineSetter__",
   "__lookupGetter__", "__lookupSetter__"]

/-- The value of the own property `key`, if the object has one. -/
def JSObject.getOwn : JSObject → String → Option JSValue
  | [], _ => none
  | (k, v) :: rest, key => if k = key then some v else JSObject.getOwn rest key

/-- Property read `o[key]`: the own property if there is one; otherwise what the
prototype chain gives, namely `Object.prototype` itself for the accessor `__proto__`, a
function for each inherited method, and `undefined` for every other key. -/
def JSObject.get (o : JSObject) (key : String) : JSValue :=
  match o.getOwn key with
  | some v => v
  | none =>
    if key = "__proto__" ∨ key ∈ objectPrototypeMethods then .object else .undefined

/-- Creates or overwrites the own data property `key`: an existing property keeps its
place, a new one is added at the end. -/
def JSObject.defineOwn : JSObject → String → JSValue → JSObject
  | [], key, v => [(key, v)]
  | (k, w) :: rest, key, v =>
    if k = key then (k, v) :: rest else (k, w) :: JSObject.defineOwn rest key v

/-- Property write `o[key] = b` of a boolean `b`, the only kind of write the program
makes: an own property is overwritten; without one, the key `__proto__` reaches the
setter inherited from `Object.prototype`, which ignores a value that is neither an
object nor `null`, so nothing is written; every other key gets a new own property (an
inherited method is merely shadowed). -/
def JSObject.set (o : JSObject) (key : String) (b : Bool) : JSObject :=
  match o.getOwn key with
  | some _ => o.defineOwn key (.bool b)
  | none => if key = "__proto__" then o else o.defineOwn key (.bool b)

/-- `Object.values(o)`. -/
def JSObject.values (o : JSObject) : List JSValue := o.map Prod.snd

/-- What `JSON.parse` can return, and so what `this.state` can hold: an ordinary object,
an array, `null`, a boolean, a number or a string. -/
inductive StateValue
  | record (o : JSObject)
  | array (items : List JSValue)
  | null
  | boolean (b : Bool)
  | number (n : Int)
  | string (s : String)
  deriving DecidableEq, Repr

/-- Whether the property read `state[stepId]`, with which `isCompleted` and `toggle`
begin, throws a `TypeError`: it does exactly when the state is `null` (`Object.values`
in `getStats` throws on it as well). -/
def StateValue.readThrows : StateValue → Bool
  | .null => true
  | _ => false

/-- `JSON.parse` and `JSON.stringify` as far as the checklist uses them. -/
structure JsonCodec where
  /-- `JSON.parse(text)`; `none` when it throws. -/
  parse : String → Option StateValue
  /-- `JSON.stringify(o)` for an ordinary object. -/
  stringify : JSObject → String

/-- `window.localStorage`: the stored items, whether reading is permitted, and which
writes the browser accepts (it throws on the others: quota exceeded, access denied). -/
structure Storage where
  items : List (String × String)
  readable : Bool
  accepts : String → String → Bool

/-- `localStorage.getItem(key)`: `none` when it throws, `some none` for `null`. -/
def Storage.getItem (ls : Storage) (key : String) : Option (Option String) :=
  if ls.readable then some ((ls.items.find? (fun kv => kv.1 == key)).map Prod.snd)
  else none

/-- `localStorage.setItem(key, value)`: `none` when it throws. -/
def Storage.setItem (ls : Storage) (key value : String) : Option Storage :=
  if ls.accepts key value then
    some { ls with items := (ls.items.filter (fun kv => kv.1 != key)) ++ [(key, value)] }
  else none

/-- A `ChecklistManager` whose `this.state` is an ordinary object, which is what the
`constructor` leaves unless the storage held the text of something else. -/
structure ChecklistManager where
  storageKey : String
  state : JSObject
  deriving DecidableEq, Repr

namespace ChecklistManager

/-- A `ChecklistManager` as the `constructor` leaves it: `this.state` is whatever
`loadState` returned. -/
structure Constructed where
  storageKey : String
  state : StateValue
  deriving DecidableEq, Repr

/-- `loadState()`: the returned value and the warnings logged.  The `catch` branch is
taken when `getItem` or `JSON.parse` throws; any value that `JSON.parse` returns is
passed on as it is. -/
def loadState (json : JsonCodec) (ls : Storage) (storageKey : String) :
    StateValue × List String :=
  match ls.getItem storageKey with
  | none => (.record [], ["Failed to load checklist state:"])
  | some none => (.record [], [])
  | some (some saved) =>
    if saved = "" then (.record [], [])
    else
      match json.parse saved with
      | some v => (v, [])
      | none => (.record [], ["Failed to load checklist state:"])

/-- The `constructor`. -/
def construct (json : JsonCodec) (ls : Storage) (storageKey : String) : Constructed :=
  { storageKey := storageKey, state := (loadState json ls storageKey).1 }

/-- The constructed manager as one over an ordinary object, when its state is one. -/
def Constructed.toManager (c : Constructed) : Option ChecklistManager :=
  match c.state with
  | .record o => some { storageKey := c.storageKey, state := o }
  | _ => none

/-- `saveState()`: the storage afterwards and the warnings logged. -/
def saveState (json : JsonCodec) (self : ChecklistManager) (ls : Storage) :
    Storage × List String :=
  match ls.setItem self.storageKey (json.stringify self.state) with
  | some ls1 => (ls1, [])
  | none => (ls, ["Failed to save checklist state:"])

/-- `isCompleted(stepId)`. -/
def isCompleted (self : ChecklistManager) (stepId : String) : Bool :=
  (self.state.get stepId).strictEqualsTrue

/-- What a call of `toggle` yields. -/
structure ToggleResult where
  returned : JSValue
  self : ChecklistManager
  storage : Storage
  warnings : List String

/-- `toggle(stepId)`. -/
def toggle (json : JsonCodec) (self : ChecklistManager) (ls : Storage) (stepId : String) :
    ToggleResult :=
  let self1 : ChecklistManager :=
    { self with state := self.state.set stepId (!(self.state.get stepId).toBoolean) }
  let saved := saveState json self1 ls
  { returned := self1.state.get stepId, self := self1, storage := saved.1,
    warnings := saved.2 }

/-- `toggle(stepId)` called `n` times in a row. -/
def toggleTimes (json : JsonCodec) (stepId : String) :
    Nat → ChecklistManager → Storage → ChecklistManager × Storage
  | 0, self, ls => (self, ls)
  | n + 1, self, ls =>
    let r := toggle json self ls stepId
    toggleTimes json stepId n r.self r.storage

/-- A sequence of `toggle` calls, one for each step identifier of the list. -/
def toggleAll (json : JsonCodec) :
    List String → ChecklistManager → Storage → ChecklistManager × Storage
  | [], self, ls => (self, ls)
  | stepId :: rest, self, ls =>
    let r := toggle json self ls stepId
    toggleAll json rest r.self r.storage

/-- The Number in the `percentage` field: `NaN` (from `0 / 0`), `Infinity` (from a positive
count over `0`) or a non-negative integer. -/
inductive Percentage
  | nan
  | infinity
  | finite (n : Nat)
  deriving DecidableEq, Repr

/-- The object returned by `getStats`. -/
structure Stats where
  completed : Nat
  total : Nat
  percentage : Percentage
  deriving DecidableEq, Repr

/-- `getStats(totalSteps)` for a non-negative integer `totalSteps` that is exact as a
Number (below `2 ^ 53`). -/
def getStats (self : ChecklistManager) (totalSteps : Nat) : Stats :=
  let completed := (self.state.values.filter JSValue.strictEqualsTrue).length
  { completed := completed
    total := totalSteps
    percentage :=
      if totalSteps = 0 then (if completed = 0 then .nan else .infinity)
      else .finite (Float64.mathRound (Float64.mulNat (Float64.divNat completed totalSteps) 100)) }

end ChecklistManager

/-! ## Specification-side notions for `validateForm` -/

/-- The string is empty or consists of white space only. -/
def IsBlank (s : String) : Prop := ∀ c ∈ s.toList, isJSWhiteSpace c = true

/-- The string is exactly eleven decimal digits. -/
def IsElevenDigits (s : String) : Prop :=
  s.length = 11 ∧ ∀ c ∈ s.toList, c.isDigit = true

/-- The values of the fourteen required fields. -/
def FormData.requiredValues (d : FormData) : List String :=
  [d.fullName, d.tckn, d.address, d.sgkCity, d.sgkDistrict, d.workCity, d.workDistrict,
   d.profession, d.startDate, d.applicationDate, d.approvalDate, d.taxOffice,
   d.debtAmount, d.petitionDate]

/-- The values of the thirteen required fields other than `tckn`. -/
def FormData.otherValues (d : FormData) : List String :=
  [d.fullName, d.address, d.sgkCity, d.sgkDistrict, d.workCity, d.workDistrict,
   d.profession, d.startDate, d.applicationDate, d.approvalDate, d.taxOffice,
   d.debtAmount, d.petitionDate]

instance (s : String) : Decidable (IsBlank s) :=
  inferInstanceAs (Decidable (∀ c ∈ s.toList, isJSWhiteSpace c = true))

/-- The most recent non-null value returned in a sequence of `generate` calls, `acc`
being the one known before the sequence. -/
def PetitionGenerator.lastReturned (h : Host) :
    PetitionGenerator → List (String × FormData) → Option String → Option String
  | _, [], acc => acc
  | self, (type, data) :: rest, acc =>
    let r := PetitionGenerator.generate h self type data
    lastReturned h r.self rest (match r.returned with
      | some text => some text
      | none => acc)

/-- The percentage that exact arithmetic gives: `100 c / t` rounded to the nearest
integer, a half being rounded up. -/
def exactPercent (c t : Nat) : Nat := (200 * c + t) / (2 * t)

/-- A state with `n` steps of which the first `k` are completed. -/
def stateWith (n k : Nat) : JSObject :=
  (List.range n).map fun i => ("step" ++ toString i, JSValue.bool (decide (i < k)))

/-! ## Occurrence of a piece of text -/

/-- The list `p` is an initial segment of the second list. -/
def startsWithChars : List Char → List Char → Bool
  | [], _ => true
  | _ :: _, [] => false
  | p :: ps, c :: cs => p == c && startsWithChars ps cs

/-- The list `p` occurs in the second list as a contiguous block. -/
def containsChars (p : List Char) : List Char → Bool
  | [] => p.isEmpty
  | c :: cs => startsWithChars p (c :: cs) || containsChars p cs

/-- The string `part` occurs in `text`. -/
def Contains (text part : String) : Prop := containsChars part.toList text.toList = true

instance (text part : String) : Decidable (Contains text part) :=
  inferInstanceAs (Decidable (containsChars part.toList text.toList = true))

/-- The string `text` ends with `part`. -/
def EndsWith (text part : String) : Prop := ∃ pre : String, text = pre ++ part

/-! ## Concrete inputs -/

/-- Upper-casing of the letters `a`-`z`, which is what `toUpperCase` does on a string
of ASCII characters (and on the other characters used in the examples below, which
have no upper-case counterpart). -/
def asciiUpper (s : String) : String := String.mk (s.toList.map Char.toUpper)

/-- A host in the zone UTC+03:00 (Europe/Istanbul).  Its `toUpperCase` and its
`dateParseOther` are only consulted, in the examples below, on ASCII text and not at
all. -/
def hostIstanbul : Host :=
  { localTZA := 10800000, dateParseOther := fun _ => none, toUpperCase := asciiUpper }

/-- The same host in the zone UTC-05:00. -/
def hostMinusFive : Host := { hostIstanbul with localTZA := -18000000 }

/-- A fully populated form. -/
def sampleForm : FormData :=
  { fullName := "AYŞE YILMAZ", tckn := "12345678901", address := "Ornek Mah. 1 Kadikoy",
    sgkCity := "istanbul", sgkDistrict := "kadikoy", workCity := "ankara",
    workDistrict := "cankaya", profession := "yazilim gelistirici",
    startDate := "2024-03-01", applicationDate := "2024-03-05",
    approvalDate := "2024-03-20", taxOffice := "Cankaya Vergi Dairesi",
    debtAmount := "12.345,67", petitionDate := "2026-01-05" }

/-- A JSON text for a value that is not an object with contents; `none` for
`undefined`, which `JSON.stringify` leaves out. -/
def JSValue.toJson : JSValue → Option String
  | .undefined => none
  | .null => some "null"
  | .bool true => some "true"
  | .bool false => some "false"
  | .number n => some (toString n)
  | .string s => some ("\"" ++ s ++ "\"")
  | .object => some "\x7b\x7d"

/-- A codec for the examples: it writes an object whose keys and string values need no
escaping, and it reads the four texts listed. -/
def sampleJson : JsonCodec :=
  { parse := fun text =>
      if text = "\x7b\x7d" then some (.record [])
      else if text = "\x7b\"step1\":true\x7d" then some (.record [("step1", .bool true)])
      else if text = "\x7b\"step1\":1\x7d" then some (.record [("step1", .number 1)])
      else if text = "null" then some .null
      else none
    stringify := fun o =>
      "\x7b" ++ ",".intercalate (o.filterMap fun kv =>
        (kv.2.toJson).map fun t => "\"" ++ kv.1 ++ "\":" ++ t) ++ "\x7d" }

/-- A storage that holds what `items` lists and accepts every write. -/
def storageWith (items : List (String × String)) : Storage :=
  { items := items, readable := true, accepts := fun _ _ => true }

/-- A storage that holds what `items` lists and is full: every write throws. -/
def storageFull (items : List (String × String)) : Storage :=
  { items := items, readable := true, accepts := fun _ _ => false }

/-- The storage key of `CONFIG`. -/
def storageKey : String := "genc-girisimci-steps"

/-! # Lemmas and theorems -/

/-! ## Lemmas on strings -/

theorem trimChars_eq_nil_iff (cs : List Char) :
    trimChars cs = [] ↔ ∀ c ∈ cs, isJSWhiteSpace c = true := by
  unfold trimChars
  rw [List.reverse_eq_nil_iff, List.dropWhile_eq_nil_iff]
  constructor
  · intro h
    have h2 : cs.dropWhile isJSWhiteSpace = [] := by
      cases hd : cs.dropWhile isJSWhiteSpace with
      | nil => rfl
      | cons x xs =>
        have hx : isJSWhiteSpace x = false := by
          have := List.head_dropWhile_not isJSWhiteSpace cs (by simp [hd])
          simpa [hd] using this
        have := h x (by simp [hd])
        simp [hx] at this
    exact List.dropWhile_eq_nil_iff.mp h2
  · intro h x hx
    have h2 : cs.dropWhile isJSWhiteSpace = [] := List.dropWhile_eq_nil_iff.mpr h
    simp [h2] at hx

theorem fieldMissing_some_iff (s : String) :
    PetitionGenerator.fieldMissing (some s) = true ↔ IsBlank s := by
  unfold PetitionGenerator.fieldMissing IsBlank jsTrim
  constructor
  · intro h
    simp only [Bool.or_eq_true, beq_iff_eq] at h
    rcases h with h | h
    · subst h; intro c hc; simp at hc
    · have : trimChars s.toList = [] := by
        have := congrArg String.data h
        simpa using this
      exact (trimChars_eq_nil_iff _).mp this
  · intro h
    simp only [Bool.or_eq_true, beq_iff_eq]
    right
    have := (trimChars_eq_nil_iff _).mpr h
    rw [this]

theorem matchDigitsThenEnd_iff (n : Nat) (cs : List Char) :
    matchDigitsThenEnd n cs = true ↔ cs.length = n ∧ ∀ c ∈ cs, c.isDigit = true := by
  induction n generalizing cs with
  | zero => cases cs <;> simp [matchDigitsThenEnd]
  | succ n ih =>
    cases cs with
    | nil => simp [matchDigitsThenEnd]
    | cons c cs =>
      simp only [matchDigitsThenEnd, Bool.and_eq_true, ih, List.length_cons, List.mem_cons,
        forall_eq_or_imp, Nat.add_right_cancel_iff]
      tauto

theorem testElevenDigits_iff (s : String) :
    testElevenDigits s = true ↔ IsElevenDigits s := by
  unfold testElevenDigits IsElevenDigits
  rw [matchDigitsThenEnd_iff]
  rcases s with ⟨l⟩
  exact Iff.rfl

theorem get_requiredFields (data : FormData) :
    PetitionGenerator.requiredFields.map data.get = data.requiredValues.map some := by
  rfl

theorem requiredLoopFails_eq_any (data : FormData) (fs : List String) :
    PetitionGenerator.requiredLoopFails data fs =
      (fs.map data.get).any PetitionGenerator.fieldMissing := by
  induction fs with
  | nil => rfl
  | cons f fs ih =>
    simp only [PetitionGenerator.requiredLoopFails, ih, List.map_cons, List.any_cons]
    cases PetitionGenerator.fieldMissing (data.get f) <;> simp

theorem requiredLoopFails_iff (data : FormData) :
    PetitionGenerator.requiredLoopFails data PetitionGenerator.requiredFields = true ↔
      ∃ s ∈ data.requiredValues, IsBlank s := by
  rw [requiredLoopFails_eq_any, get_requiredFields]
  simp only [List.any_eq_true, List.mem_map]
  constructor
  · rintro ⟨_, ⟨s, hs, rfl⟩, h⟩
    exact ⟨s, hs, (fieldMissing_some_iff s).mp h⟩
  · rintro ⟨s, hs, h⟩
    exact ⟨some s, ⟨s, hs, rfl⟩, (fieldMissing_some_iff s).mpr h⟩

/-! ## `validateForm` and `generate` -/

theorem validateForm_fst (data : FormData) :
    (PetitionGenerator.validateForm data).1 =
      (!PetitionGenerator.requiredLoopFails data PetitionGenerator.requiredFields &&
        testElevenDigits data.tckn) := by
  unfold PetitionGenerator.validateForm
  cases PetitionGenerator.requiredLoopFails data PetitionGenerator.requiredFields <;>
    cases testElevenDigits data.tckn <;> rfl

theorem elevenDigits_examples :
    ¬ IsElevenDigits "12345" ∧ IsElevenDigits "12345678901" := by
  constructor
  · rw [← testElevenDigits_iff]; decide
  · rw [← testElevenDigits_iff]; decide

/-- C1: `validateForm` returns false exactly when one of the fourteen required fields
is empty or consists of white space only, or `tckn` is not exactly eleven decimal
digits; when all the other fields are filled, `tckn = "12345"` is rejected and
`tckn = "12345678901"` is accepted. -/
theorem validateForm_false_iff (data : FormData) :
    ((PetitionGenerator.validateForm data).1 = false ↔
      ((∃ s ∈ data.requiredValues, IsBlank s) ∨ ¬ IsElevenDigits data.tckn)) ∧
    ((∀ s ∈ data.otherValues, ¬ IsBlank s) →
      (PetitionGenerator.validateForm { data with tckn := "12345" }).1 = false ∧
      (PetitionGenerator.validateForm { data with tckn := "12345678901" }).1 = true) := by
  have key : ∀ d : FormData, (PetitionGenerator.validateForm d).1 = false ↔
      ((∃ s ∈ d.requiredValues, IsBlank s) ∨ ¬ IsElevenDigits d.tckn) := by
    intro d
    rw [validateForm_fst, ← requiredLoopFails_iff, ← testElevenDigits_iff]
    cases PetitionGenerator.requiredLoopFails d PetitionGenerator.requiredFields <;>
      cases testElevenDigits d.tckn <;> simp
  refine ⟨key data, fun hfilled => ⟨?_, ?_⟩⟩
  · exact (key _).mpr (Or.inr elevenDigits_examples.1)
  · have hnot := (key { data with tckn := "12345678901" }).not
    rw [Bool.not_eq_false] at hnot
    apply hnot.mpr
    rintro (⟨s, hs, hb⟩ | h11)
    · simp only [FormData.requiredValues, List.mem_cons, List.mem_singleton,
        List.not_mem_nil, or_false] at hs
      simp only [FormData.otherValues, List.mem_cons, List.mem_singleton,
        List.not_mem_nil, or_false] at hfilled
      obtain h | h | hrest := hs
      · exact hfilled s (Or.inl h) hb
      · subst h; revert hb; decide
      · exact hfilled s (Or.inr hrest) hb
    · exact h11 elevenDigits_examples.2

theorem validateForm_false_iff_witness :
    (∀ s ∈ sampleForm.otherValues, ¬ IsBlank s) ∧
    (PetitionGenerator.validateForm { sampleForm with tckn := "12345" }).1 = false ∧
    (PetitionGenerator.validateForm { sampleForm with tckn := "12345678901" }).1 = true :=
  ⟨by decide, (validateForm_false_iff sampleForm).2 (by decide)⟩

/-- C2: when `validateForm` rejects the form, `generate` returns `null` and leaves
`generatedText` and `currentPetitionType`, the state of the generator, as they were. -/
theorem generate_invalid (h : Host) (self : PetitionGenerator) (type : String)
    (data : FormData) (hv : (PetitionGenerator.validateForm data).1 = false) :
    (PetitionGenerator.generate h self type data).returned = none ∧
    (PetitionGenerator.generate h self type data).self = self := by
  unfold PetitionGenerator.generate
  simp [hv]

theorem generate_invalid_witness :
    (PetitionGenerator.validateForm { sampleForm with tckn := "12345" }).1 = false ∧
    (PetitionGenerator.generate hostIstanbul ⟨"sgk", "previous text"⟩ "other"
        { sampleForm with tckn := "12345" }).returned = none ∧
    (PetitionGenerator.generate hostIstanbul ⟨"sgk", "previous text"⟩ "other"
        { sampleForm with tckn := "12345" }).self = ⟨"sgk", "previous text"⟩ :=
  ⟨by decide, generate_invalid hostIstanbul ⟨"sgk", "previous text"⟩ "other"
    { sampleForm with tckn := "12345" } (by decide)⟩

theorem generate_accepted_eq (h : Host) (self : PetitionGenerator) (type : String)
    (data : FormData) (hv : (PetitionGenerator.validateForm data).1 = true) :
    PetitionGenerator.generate h self type data =
      { returned := some (PetitionGenerator.generateSGKPetition h data),
        self := { currentPetitionType := type,
                  generatedText := PetitionGenerator.generateSGKPetition h data },
        alerts := (PetitionGenerator.validateForm data).2 } := by
  unfold PetitionGenerator.generate
  by_cases ht : type = "sgk" <;> simp [hv, ht]

theorem generate_rejected_eq (h : Host) (self : PetitionGenerator) (type : String)
    (data : FormData) (hv : (PetitionGenerator.validateForm data).1 = false) :
    (PetitionGenerator.generate h self type data).returned = none ∧
    (PetitionGenerator.generate h self type data).self = self := by
  unfold PetitionGenerator.generate
  simp [hv]

theorem generateAll_lastReturned (h : Host) (calls : List (String × FormData)) :
    ∀ (self : PetitionGenerator) (acc : Option String) (d : String),
      acc.getD d = self.generatedText →
      (PetitionGenerator.generateAll h self calls).generatedText =
        (PetitionGenerator.lastReturned h self calls acc).getD d := by
  induction calls with
  | nil => intro self acc d hacc; simp [PetitionGenerator.generateAll,
      PetitionGenerator.lastReturned, hacc]
  | cons c rest ih =>
    intro self acc d hacc
    obtain ⟨type, data⟩ := c
    simp only [PetitionGenerator.generateAll, PetitionGenerator.lastReturned]
    apply ih
    cases hv : (PetitionGenerator.validateForm data).1 with
    | true => rw [generate_accepted_eq h self type data hv]; rfl
    | false =>
      obtain ⟨h1, h2⟩ := generate_rejected_eq h self type data hv
      rw [h1, h2]; exact hacc

/-- C3: whatever the type string, when `validateForm` accepts the form `generate`
returns `generateSGKPetition(data)` and stores it as `generatedText`; after any
sequence of calls `generatedText` is the text returned by the most recent successful
call (the text held before the sequence when there was none), so a second successful
call overwrites the first and a failed call in between changes nothing. -/
theorem generate_valid (h : Host) (self : PetitionGenerator) :
    (∀ (type : String) (data : FormData), (PetitionGenerator.validateForm data).1 = true →
      (PetitionGenerator.generate h self type data).returned =
        some (PetitionGenerator.generateSGKPetition h data) ∧
      (PetitionGenerator.generate h self type data).self.generatedText =
        PetitionGenerator.generateSGKPetition h data) ∧
    (∀ calls : List (String × FormData),
      (PetitionGenerator.generateAll h self calls).generatedText =
        (PetitionGenerator.lastReturned h self calls none).getD self.generatedText) ∧
    (∀ (t1 t2 t3 : String) (d1 d2 d3 : FormData),
      (PetitionGenerator.validateForm d1).1 = true →
      (PetitionGenerator.validateForm d2).1 = false →
      (PetitionGenerator.validateForm d3).1 = true →
      (PetitionGenerator.generateAll h self [(t1, d1), (t2, d2)]).generatedText =
        PetitionGenerator.generateSGKPetition h d1 ∧
      (PetitionGenerator.generateAll h self [(t1, d1), (t2, d2), (t3, d3)]).generatedText =
        PetitionGenerator.generateSGKPetition h d3) := by
  refine ⟨fun type data hv => ?_, fun calls => ?_, fun t1 t2 t3 d1 d2 d3 h1 h2 h3 => ?_⟩
  · rw [generate_accepted_eq h self type data hv]
    exact ⟨rfl, rfl⟩
  · exact generateAll_lastReturned h calls self none self.generatedText rfl
  · simp only [PetitionGenerator.generateAll]
    rw [generate_accepted_eq h self t1 d1 h1]
    obtain ⟨-, h2s⟩ := generate_rejected_eq h
      { currentPetitionType := t1,
        generatedText := PetitionGenerator.generateSGKPetition h d1 } t2 d2 h2
    rw [h2s]
    refine ⟨rfl, ?_⟩
    rw [generate_accepted_eq h _ t3 d3 h3]

theorem generate_valid_witness :
    (PetitionGenerator.validateForm sampleForm).1 = true ∧
    (PetitionGenerator.generate hostIstanbul PetitionGenerator.new "unknown"
        sampleForm).returned =
      some (PetitionGenerator.generateSGKPetition hostIstanbul sampleForm) ∧
    (PetitionGenerator.generate hostIstanbul PetitionGenerator.new "unknown"
        sampleForm).self.generatedText =
      PetitionGenerator.generateSGKPetition hostIstanbul sampleForm :=
  ⟨by decide, (generate_valid hostIstanbul PetitionGenerator.new).1 "unknown" sampleForm
    (by decide)⟩

/-! ## The petition text -/

theorem startsWithChars_iff (p t : List Char) :
    startsWithChars p t = true ↔ ∃ b, t = p ++ b := by
  induction p generalizing t with
  | nil => simp [startsWithChars]
  | cons x xs ih =>
    cases t with
    | nil => simp [startsWithChars]
    | cons c cs =>
      simp only [startsWithChars, Bool.and_eq_true, beq_iff_eq, ih, List.cons_append,
        List.cons.injEq]
      constructor
      · rintro ⟨rfl, b, rfl⟩; exact ⟨b, rfl, rfl⟩
      · rintro ⟨b, rfl, rfl⟩; exact ⟨rfl, b, rfl⟩

theorem containsChars_iff (p t : List Char) :
    containsChars p t = true ↔ ∃ a b, t = a ++ p ++ b := by
  induction t with
  | nil =>
    simp only [containsChars, List.isEmpty_iff]
    constructor
    · rintro rfl; exact ⟨[], [], rfl⟩
    · rintro ⟨a, b, h⟩
      have := congrArg List.length h
      simp at this
      exact List.length_eq_zero.mp (by omega)
  | cons c cs ih =>
    simp only [containsChars, Bool.or_eq_true, startsWithChars_iff, ih]
    constructor
    · rintro (⟨b, hb⟩ | ⟨a, b, hab⟩)
      · exact ⟨[], b, by simpa using hb⟩
      · exact ⟨c :: a, b, by simp [hab]⟩
    · rintro ⟨a, b, hab⟩
      cases a with
      | nil => left; exact ⟨b, by simpa using hab⟩
      | cons x xs =>
        right
        simp only [List.cons_append, List.cons.injEq] at hab
        exact ⟨xs, b, hab.2⟩

/-- `Contains text part` says that `text` is `part` with something before and after. -/
theorem contains_iff (text part : String) :
    Contains text part ↔ ∃ a b : List Char, text.toList = a ++ part.toList ++ b :=
  containsChars_iff part.toList text.toList

theorem startsWithChars_append (p b : List Char) : startsWithChars p (p ++ b) = true := by
  induction p with
  | nil => rfl
  | cons c cs ih => simp [startsWithChars, ih]

theorem containsChars_append_self (p b : List Char) : containsChars p (p ++ b) = true := by
  cases hp : p ++ b with
  | nil =>
    have : p = [] := (List.append_eq_nil.mp hp).1
    subst this; rfl
  | cons c cs =>
    rw [← hp]
    have := startsWithChars_append p b
    rw [hp] at this ⊢
    simp [containsChars, this]

theorem containsChars_append_left (p a t : List Char) (ht : containsChars p t = true) :
    containsChars p (a ++ t) = true := by
  induction a with
  | nil => exact ht
  | cons c cs ih => simp [containsChars, ih]

theorem toList_join_cons (x : String) (xs : List String) :
    (String.join (x :: xs)).toList = x.toList ++ (String.join xs).toList := by
  have key : ∀ (l : List String) (acc : String),
      (List.foldl (fun r s => r ++ s) acc l).toList =
        acc.toList ++ (List.foldl (fun r s => r ++ s) "" l).toList := by
    intro l
    induction l with
    | nil => intro acc; simp
    | cons y ys ih =>
      intro acc
      rw [List.foldl_cons, ih, List.foldl_cons, ih ("" ++ y)]
      simp [List.append_assoc]
  unfold String.join
  rw [List.foldl_cons, key]
  simp

theorem contains_line (lines : List String) :
    ∀ (k : Nat) (l : String), lines.get? k = some l → Contains (String.join lines) l := by
  induction lines with
  | nil => intro k l hk; simp at hk
  | cons x xs ih =>
    intro k l hk
    unfold Contains
    rw [toList_join_cons]
    cases k with
    | zero =>
      simp only [List.get?_cons_zero, Option.some.injEq] at hk
      subst hk
      exact containsChars_append_self _ _
    | succ k =>
      simp only [List.get?_cons_succ] at hk
      exact containsChars_append_left _ _ _ (ih k l hk)

theorem contains_two_lines (lines : List String) :
    ∀ (k : Nat) (l1 l2 : String), lines.get? k = some l1 → lines.get? (k + 1) = some l2 →
      Contains (String.join lines) (l1 ++ l2) := by
  induction lines with
  | nil => intro k l1 l2 hk; simp at hk
  | cons x xs ih =>
    intro k l1 l2 hk1 hk2
    unfold Contains
    rw [toList_join_cons]
    cases k with
    | zero =>
      simp only [List.get?_cons_zero, Option.some.injEq] at hk1
      subst hk1
      cases xs with
      | nil => simp at hk2
      | cons y ys =>
        simp only [List.get?_cons_succ, List.get?_cons_zero, Option.some.injEq] at hk2
        subst hk2
        rw [toList_join_cons, ← List.append_assoc]
        have : (x ++ y).toList = x.toList ++ y.toList := by simp
        rw [this]
        exact containsChars_append_self _ _
    | succ k =>
      simp only [List.get?_cons_succ] at hk1 hk2
      exact containsChars_append_left _ _ _ (ih k l1 l2 hk1 hk2)

theorem join_append (a b : List String) :
    String.join (a ++ b) = String.join a ++ String.join b := by
  apply String.ext
  induction a with
  | nil => simp [String.join]
  | cons x xs ih =>
    have h1 := toList_join_cons x (xs ++ b)
    have h2 := toList_join_cons x xs
    simp only [String.toList] at h1 h2
    simp only [List.cons_append, String.data_append, h1, h2, ih, List.append_assoc]

/-- C5: for every form data the text of `generateSGKPetition` carries
`calculateEndDate(data.startDate)` at the four places where `endDateFormatted` is
interpolated (the KONU line, the paragraph that names the start date, the closing
paragraph and item 2 of the request), and it has the line `AD SOYAD : ` followed by
the upper-cased `fullName`. -/
theorem generateSGKPetition_endDate (h : Host) (data : FormData) :
    Contains (PetitionGenerator.generateSGKPetition h data)
      ("KONU : Hukuka aykırı olarak tahakkuk ettirilen prim borcunun geri alınması ve Genç Girişimci Desteğinin " ++ PetitionGenerator.calculateEndDate h data.startDate ++ " tarihine kadar devamı hususunda talepleri içerir dilekçedir.\n") ∧
    Contains (PetitionGenerator.generateSGKPetition h data)
      ("İlgili kanun 01.01.2026 tarihinde yürürlüğe girecek ve bu tarihten sonra yapılacak olan başvuruları kapsayacak şekilde Genç Girişimci Desteği kaldırılmıştır. Ancak normal şartlarda mesleğe başladığım tarih olan " ++ PetitionGenerator.formatDate data.startDate ++ " tarihinden 1 yıl sonrası olan " ++ PetitionGenerator.calculateEndDate h data.startDate ++ " tarihine kadar devam etmesi gereken Genç Girişimci Desteği 01.01.2026 tarihinde sona erdirilmiş ve tarafıma " ++ data.debtAmount ++ " TL tutarında prim borcu yansıtılmıştır.\n") ∧
    Contains (PetitionGenerator.generateSGKPetition h data)
      ("Tüm bu nedenlerle ilgili hukuka aykırı prim borcu tahakkuku işleminin baştan itibaren geri alınması ve desteğin sona ereceği tarih olan " ++ PetitionGenerator.calculateEndDate h data.startDate ++ " tarihine kadar ilgili sigorta prim desteğinin devam ettirilmesi gerekmektedir.\n") ∧
    Contains (PetitionGenerator.generateSGKPetition h data)
      ("2) Mülga edilen kanun bendinde belirtilen 1 yıllık sürenin bitimi olan " ++ PetitionGenerator.calculateEndDate h data.startDate ++ " tarihine kadar sigorta primlerimin ÖDENMESİNE DEVAM EDİLMESİ'ni talep ediyorum.\n") ∧
    Contains (PetitionGenerator.generateSGKPetition h data)
      ("\n" ++ ("AD SOYAD : " ++ h.toUpperCase data.fullName ++ "\n")) := by
  refine ⟨?_, ?_, ?_, ?_, ?_⟩
  · exact contains_line _ 7 _ rfl
  · exact contains_line _ 23 _ rfl
  · exact contains_line _ 27 _ rfl
  · exact contains_line _ 31 _ rfl
  · exact contains_two_lines _ 2 _ _ rfl rfl

/-- C6, the claim as stated fails: with `workCity = "ankara"`, `workDistrict = "cankaya"`
and `sgkDistrict = "kadikoy"` the first paragraph starts with `ankara cankaya'de`, the
upper-cased `ANKARA` and `CANKAYA` occur nowhere in the text, and the paragraph on the
acceptance letter names `kadikoy`, not `KADIKOY`. -/
theorem generateSGKPetition_not_all_upper :
    hostIstanbul.toUpperCase sampleForm.workCity = "ANKARA" ∧
    hostIstanbul.toUpperCase sampleForm.workDistrict = "CANKAYA" ∧
    hostIstanbul.toUpperCase sampleForm.sgkDistrict = "KADIKOY" ∧
    Contains (PetitionGenerator.generateSGKPetition hostIstanbul sampleForm)
      "\n\nankara cankaya'de 01.03.2024 tarihinden beri " ∧
    ¬ Contains (PetitionGenerator.generateSGKPetition hostIstanbul sampleForm) "ANKARA" ∧
    ¬ Contains (PetitionGenerator.generateSGKPetition hostIstanbul sampleForm) "CANKAYA" ∧
    Contains (PetitionGenerator.generateSGKPetition hostIstanbul sampleForm)
      "\nşeklindeki kabul yazısını kadikoy SGK müdürlüğüne" ∧
    ¬ Contains (PetitionGenerator.generateSGKPetition hostIstanbul sampleForm)
      "yazısını KADIKOY" := by
  decide!

/-- C6 as amended: `generateSGKPetition` substitutes all fourteen fields; `sgkCity` and
`sgkDistrict` are upper-cased in the line that names the directorate and `fullName` in
the `AD SOYAD` line, while `workCity` and `workDistrict` in the first paragraph,
`sgkDistrict` in the paragraph on the acceptance letter and `fullName` in the closing
signature are inserted as they were entered. -/
theorem generateSGKPetition_substitutes (h : Host) (data : FormData) :
    Contains (PetitionGenerator.generateSGKPetition h data)
      (h.toUpperCase data.sgkCity ++ " " ++ h.toUpperCase data.sgkDistrict ++ " SOSYAL GÜVENLİK MÜDÜRLÜĞÜNE\n") ∧
    Contains (PetitionGenerator.generateSGKPetition h data)
      ("AD SOYAD : " ++ h.toUpperCase data.fullName ++ "\n") ∧
    Contains (PetitionGenerator.generateSGKPetition h data)
      ("TCKN : " ++ data.tckn ++ "\n") ∧
    Contains (PetitionGenerator.generateSGKPetition h data)
      ("ADRES : " ++ data.address ++ "\n") ∧
    Contains (PetitionGenerator.generateSGKPetition h data)
      (data.workCity ++ " " ++ data.workDistrict ++ "'de " ++ PetitionGenerator.formatDate data.startDate ++ " tarihinden beri " ++ data.profession ++ " mesleğini icra etmekteyim. İlgili şartları sağladığım için " ++ PetitionGenerator.formatDate data.applicationDate ++ " Genç Girişimcilerde Kazanç İstisnası programına başvurdum ve " ++ data.taxOffice ++ " tarafından " ++ PetitionGenerator.formatDate data.approvalDate ++ " tarihinde tarafıma tebliğ edilen:\n") ∧
    Contains (PetitionGenerator.generateSGKPetition h data)
      ("'İlgi dilekçenize istinaden dairemiz kayıtları tetkik edildiğinde; " ++ data.tckn ++ " T.C kimlik numarası ile " ++ PetitionGenerator.formatDate data.startDate ++ " tarihinden itibaren dairemiz mükellefi olduğunuz ve 193 Sayılı Gelir Vergisi Kanunu'nun mükerrer 20. maddesindeki \"Genç Girişimcilerde Kazanç İstisnası \" şartlarını taşıdığınız görülmüştür.'\n") ∧
    Contains (PetitionGenerator.generateSGKPetition h data)
      ("şeklindeki kabul yazısını " ++ data.sgkDistrict ++ " SGK müdürlüğüne ibraz etmem akabinde ilgili genç girişimci desteğinden yararlanmaya başladım.\n") ∧
    Contains (PetitionGenerator.generateSGKPetition h data)
      ("İlgili kanun 01.01.2026 tarihinde yürürlüğe girecek ve bu tarihten sonra yapılacak olan başvuruları kapsayacak şekilde Genç Girişimci Desteği kaldırılmıştır. Ancak normal şartlarda mesleğe başladığım tarih olan " ++ PetitionGenerator.formatDate data.startDate ++ " tarihinden 1 yıl sonrası olan " ++ PetitionGenerator.calculateEndDate h data.startDate ++ " tarihine kadar devam etmesi gereken Genç Girişimci Desteği 01.01.2026 tarihinde sona erdirilmiş ve tarafıma " ++ data.debtAmount ++ " TL tutarında prim borcu yansıtılmıştır.\n") ∧
    Contains (PetitionGenerator.generateSGKPetition h data)
      (PetitionGenerator.formatDate data.petitionDate ++ "\n") ∧
    Contains (PetitionGenerator.generateSGKPetition h data)
      ("EK2 - Haksız olarak tahakkuk ettirilen " ++ data.debtAmount ++ " TL tutarındaki prim borcunu gösterir görsel\n") ∧
    EndsWith (PetitionGenerator.generateSGKPetition h data) ("\n" ++ data.fullName) := by
  refine ⟨?_, ?_, ?_, ?_, ?_, ?_, ?_, ?_, ?_, ?_, ?_⟩
  · exact contains_line _ 1 _ rfl
  · exact contains_line _ 3 _ rfl
  · exact contains_line _ 4 _ rfl
  · exact contains_line _ 5 _ rfl
  · exact contains_line _ 9 _ rfl
  · exact contains_line _ 11 _ rfl
  · exact contains_line _ 13 _ rfl
  · exact contains_line _ 23 _ rfl
  · exact contains_line _ 33 _ rfl
  · exact contains_line _ 37 _ rfl
  · refine ⟨String.join ((PetitionGenerator.petitionLines h data).take 38), ?_⟩
    have hj : String.join ["\n", data.fullName] = "\n" ++ data.fullName := by
      simp [String.join]
    rw [← hj, ← join_append]
    rfl

/-! ## `Date` and `calculateEndDate` -/

section DateLemmas

open JSDate

theorem dayFromYear_succ (y : Int) : dayFromYear (y + 1) = dayFromYear y + daysInYear y := by
  unfold dayFromYear daysInYear
  split_ifs <;> omega

theorem dayFromYear_bounds (y : Int) :
    -400 ≤ 400 * dayFromYear y - 146097 * (y - 1970) ∧
    400 * dayFromYear y - 146097 * (y - 1970) ≤ 500 := by
  unfold dayFromYear
  omega

theorem daysInYear_ge (y : Int) : 365 ≤ daysInYear y := by
  unfold daysInYear; split_ifs <;> omega

theorem yearFromDay_eq (y d : Int) (h1 : dayFromYear y ≤ d) (h2 : d < dayFromYear (y + 1)) :
    yearFromDay d = y := by
  have hb1 := dayFromYear_bounds y
  have hb2 := dayFromYear_bounds (y + 1)
  have he1 : y - 1 ≤ 1970 + 400 * d / 146097 := by omega
  have he2 : 1970 + 400 * d / 146097 ≤ y + 1 := by omega
  unfold yearFromDay
  simp only
  generalize 1970 + 400 * d / 146097 = e at *
  have hs := dayFromYear_succ (y + 1)
  have hd := daysInYear_ge (y + 1)
  rcases (by omega : e = y - 1 ∨ e = y ∨ e = y + 1) with h | h | h
  · rw [h, Int.sub_add_cancel, if_pos h1]
  · rw [h, if_neg (by omega), if_pos h1]
  · rw [h, if_neg (by omega), if_neg (by omega)]
    omega

/-- The leap-day count of a year and how the tables depend on it. -/
theorem leap_tables (y : Int) :
    ∃ l : Int, (l = 0 ∨ l = 1) ∧ daysInYear y = 365 + l ∧
      (if daysInYear y = 366 then (1 : Int) else 0) = l ∧
      (if daysInYear y = 366 then (29 : Int) else 28) = 28 + l := by
  by_cases h : daysInYear y = 366
  · exact ⟨1, Or.inr rfl, by omega, by simp [h], by simp [h]⟩
  · have := daysInYear_ge y
    have h2 : daysInYear y = 365 := by
      unfold daysInYear at *; split_ifs at * <;> omega
    exact ⟨0, Or.inl rfl, by omega, by simp [h], by simp [h]⟩

/-- The calendar reading of a time value whose day number is the `k`-th day of year `y`. -/
theorem civil_of_day (y k t : Int) (hk0 : 0 ≤ k) (hk : k < daysInYear y)
    (ht : day t = dayFromYear y + k) :
    yearFromTime t = y ∧ dayWithinYear t = k ∧
      inLeapYear t = (if daysInYear y = 366 then 1 else 0) := by
  have hy : yearFromTime t = y := by
    unfold yearFromTime
    rw [ht]
    apply yearFromDay_eq
    · omega
    · rw [dayFromYear_succ]; omega
  refine ⟨hy, ?_, ?_⟩
  · unfold dayWithinYear; rw [hy, ht]; omega
  · unfold inLeapYear; rw [hy]

theorem day_makeDate (d tod : Int) (h0 : 0 ≤ tod) (h1 : tod < msPerDay) :
    day (makeDate d tod) = d ∧ timeWithinDay (makeDate d tod) = tod := by
  unfold day makeDate timeWithinDay msPerDay at *
  omega

theorem makeDay_eq (y mi dd : Int) (h0 : 0 ≤ mi) (h1 : mi ≤ 11) :
    makeDay y mi dd = dayFromYear y + daysBeforeMonth y mi + dd - 1 := by
  unfold makeDay
  have e1 : mi / 12 = 0 := by omega
  have e2 : mi % 12 = mi := by omega
  simp only [e1, e2, add_zero]

/-- Month and day of the month of day `k` of a year with `l` leap days, `k` being given
as day `dd` of month `mi`. -/
theorem month_date_of_day (t mi dd k l c n : Int) (hl : l = 0 ∨ l = 1)
    (hdw : dayWithinYear t = k) (hleap : inLeapYear t = l) (hk : k = c + dd - 1)
    (hd1 : 1 ≤ dd) (hd2 : dd ≤ n)
    (htab : (mi = 0 ∧ c = 0 ∧ n = 31) ∨ (mi = 1 ∧ c = 31 ∧ n = 28 + l) ∨
      (mi = 2 ∧ c = 59 + l ∧ n = 31) ∨ (mi = 3 ∧ c = 90 + l ∧ n = 30) ∨
      (mi = 4 ∧ c = 120 + l ∧ n = 31) ∨ (mi = 5 ∧ c = 151 + l ∧ n = 30) ∨
      (mi = 6 ∧ c = 181 + l ∧ n = 31) ∨ (mi = 7 ∧ c = 212 + l ∧ n = 31) ∨
      (mi = 8 ∧ c = 243 + l ∧ n = 30) ∨ (mi = 9 ∧ c = 273 + l ∧ n = 31) ∨
      (mi = 10 ∧ c = 304 + l ∧ n = 30) ∨ (mi = 11 ∧ c = 334 + l ∧ n = 31)) :
    monthFromTime t = mi ∧ dateFromTime t = dd := by
  have hm : monthFromTime t = mi := by
    unfold monthFromTime
    simp only [hdw, hleap]
    rcases htab with h | h | h | h | h | h | h | h | h | h | h | h <;>
      obtain ⟨h1, h2, h3⟩ := h <;> subst h1 h2 h3 hk
    · rw [if_pos]; omega
    · rw [if_neg, if_pos] <;> omega
    · rw [if_neg, if_neg, if_pos] <;> omega
    · rw [if_neg, if_neg, if_neg, if_pos] <;> omega
    · rw [if_neg, if_neg, if_neg, if_neg, if_pos] <;> omega
    · rw [if_neg, if_neg, if_neg, if_neg, if_neg, if_pos] <;> omega
    · rw [if_neg, if_neg, if_neg, if_neg, if_neg, if_neg, if_pos] <;> omega
    · rw [if_neg, if_neg, if_neg, if_neg, if_neg, if_neg, if_neg, if_pos] <;> omega
    · rw [if_neg, if_neg, if_neg, if_neg, if_neg, if_neg, if_neg, if_neg, if_pos] <;> omega
    · rw [if_neg, if_neg, if_neg, if_neg, if_neg, if_neg, if_neg, if_neg, if_neg, if_pos] <;> omega
    · rw [if_neg, if_neg, if_neg, if_neg, if_neg, if_neg, if_neg, if_neg, if_neg, if_neg, if_pos] <;> omega
    · rw [if_neg, if_neg, if_neg, if_neg, if_neg, if_neg, if_neg, if_neg, if_neg, if_neg, if_neg] <;> omega
  refine ⟨hm, ?_⟩
  unfold dateFromTime
  simp only [hdw, hleap, hm]
  rcases htab with h | h | h | h | h | h | h | h | h | h | h | h <;>
    obtain ⟨h1, h2, h3⟩ := h <;> subst h1 <;> norm_num <;> omega

theorem tables (y mi l : Int) (h0 : 0 ≤ mi) (h1 : mi ≤ 11)
    (hl1 : (if daysInYear y = 366 then (1 : Int) else 0) = l)
    (hl2 : (if daysInYear y = 366 then (29 : Int) else 28) = 28 + l) :
    (mi = 0 ∧ daysBeforeMonth y mi = 0 ∧ daysInMonth y (mi + 1) = 31) ∨
    (mi = 1 ∧ daysBeforeMonth y mi = 31 ∧ daysInMonth y (mi + 1) = 28 + l) ∨
    (mi = 2 ∧ daysBeforeMonth y mi = 59 + l ∧ daysInMonth y (mi + 1) = 31) ∨
    (mi = 3 ∧ daysBeforeMonth y mi = 90 + l ∧ daysInMonth y (mi + 1) = 30) ∨
    (mi = 4 ∧ daysBeforeMonth y mi = 120 + l ∧ daysInMonth y (mi + 1) = 31) ∨
    (mi = 5 ∧ daysBeforeMonth y mi = 151 + l ∧ daysInMonth y (mi + 1) = 30) ∨
    (mi = 6 ∧ daysBeforeMonth y mi = 181 + l ∧ daysInMonth y (mi + 1) = 31) ∨
    (mi = 7 ∧ daysBeforeMonth y mi = 212 + l ∧ daysInMonth y (mi + 1) = 31) ∨
    (mi = 8 ∧ daysBeforeMonth y mi = 243 + l ∧ daysInMonth y (mi + 1) = 30) ∨
    (mi = 9 ∧ daysBeforeMonth y mi = 273 + l ∧ daysInMonth y (mi + 1) = 31) ∨
    (mi = 10 ∧ daysBeforeMonth y mi = 304 + l ∧ daysInMonth y (mi + 1) = 30) ∨
    (mi = 11 ∧ daysBeforeMonth y mi = 334 + l ∧ daysInMonth y (mi + 1) = 31) := by
  unfold daysBeforeMonth daysInMonth
  simp only [hl1, hl2]
  rcases (by omega : mi = 0 ∨ mi = 1 ∨ mi = 2 ∨ mi = 3 ∨ mi = 4 ∨ mi = 5 ∨ mi = 6 ∨ mi = 7 ∨
      mi = 8 ∨ mi = 9 ∨ mi = 10 ∨ mi = 11) with h | h | h | h | h | h | h | h | h | h | h | h <;>
    subst h <;> norm_num

/-- Reading back a date that exists in the calendar. -/
theorem civil_roundtrip (y mi dd t : Int) (h0 : 0 ≤ mi) (h1 : mi ≤ 11) (hd1 : 1 ≤ dd)
    (hd2 : dd ≤ daysInMonth y (mi + 1)) (ht : day t = makeDay y mi dd) :
    yearFromTime t = y ∧ monthFromTime t = mi ∧ dateFromTime t = dd := by
  rw [makeDay_eq y mi dd h0 h1] at ht
  obtain ⟨l, hl, hdiy, hl1, hl2⟩ := leap_tables y
  have htab := tables y mi l h0 h1 hl1 hl2
  have hk : 0 ≤ daysBeforeMonth y mi + dd - 1 ∧
      daysBeforeMonth y mi + dd - 1 < daysInYear y := by
    rcases htab with h | h | h | h | h | h | h | h | h | h | h | h <;>
      obtain ⟨-, h2, h3⟩ := h <;> omega
  obtain ⟨hy, hdw, hleap⟩ :=
    civil_of_day y (daysBeforeMonth y mi + dd - 1) t hk.1 hk.2 (by rw [ht]; ring)
  rw [hl1] at hleap
  refine ⟨hy, month_date_of_day t mi dd _ l (daysBeforeMonth y mi) (daysInMonth y (mi + 1)) hl hdw
    hleap rfl hd1 hd2 htab⟩

theorem isDigit_digitValue (c : Char) (hc : c.isDigit = true) :
    0 ≤ digitValue c ∧ digitValue c ≤ 9 := by
  unfold Char.isDigit at hc
  unfold digitValue
  simp only [Bool.and_eq_true, decide_eq_true_eq] at hc
  obtain ⟨h1, h2⟩ := hc
  have h1' : 48 ≤ c.toNat := h1
  have h2' : c.toNat ≤ 57 := h2
  omega

theorem parseIsoDate_some (s : String) (y m d : Int)
    (hp : parseIsoDate s = some (y, m, d)) :
    s ≠ "" ∧ 0 ≤ y ∧ y ≤ 9999 ∧ 1 ≤ m ∧ m ≤ 12 ∧ 1 ≤ d ∧ d ≤ daysInMonth y m := by
  unfold parseIsoDate at hp
  split at hp
  · rename_i y1 y2 y3 y4 m1 m2 d1 d2 heq
    split at hp
    · rename_i hdig
      simp only [Bool.and_eq_true] at hdig
      obtain ⟨⟨⟨⟨⟨⟨⟨hy1, hy2⟩, hy3⟩, hy4⟩, hm1⟩, hm2⟩, hd1⟩, hd2⟩ := hdig
      simp only at hp
      split at hp
      · rename_i hval
        simp only [Option.some.injEq, Prod.mk.injEq] at hp
        obtain ⟨rfl, rfl, rfl⟩ := hp
        have b1 := isDigit_digitValue y1 hy1
        have b2 := isDigit_digitValue y2 hy2
        have b3 := isDigit_digitValue y3 hy3
        have b4 := isDigit_digitValue y4 hy4
        refine ⟨?_, by omega, by omega, hval.1, hval.2.1, hval.2.2.1, hval.2.2.2⟩
        intro hs
        rw [hs] at heq
        simp at heq
      · exact absurd hp (by simp)
    · exact absurd hp (by simp)
  · exact absurd hp (by simp)

theorem local_day (h : Host) (D : Int) (htz0 : 0 ≤ h.localTZA) (htz1 : h.localTZA < msPerDay) :
    day (localTime h (makeDate D 0)) = D ∧
    timeWithinDay (localTime h (makeDate D 0)) = h.localTZA := by
  unfold localTime day makeDate timeWithinDay msPerDay at *
  omega

theorem timeClip_some (v : Int) (h1 : -8640000000000000 ≤ v) (h2 : v ≤ 8640000000000000) :
    timeClip (some v) = some v := by
  unfold timeClip
  have : ¬ v.natAbs > 8640000000000000 := by omega
  simp [this]

theorem makeDay_bounds (y mi dd : Int) (hy0 : 0 ≤ y) (hy1 : y ≤ 10000) (h0 : 0 ≤ mi)
    (h1 : mi ≤ 11) (hd1 : 1 ≤ dd) (hd2 : dd ≤ 31) :
    -1000000 ≤ makeDay y mi dd ∧ makeDay y mi dd ≤ 3000000 := by
  rw [makeDay_eq y mi dd h0 h1]
  obtain ⟨l, hl, -, hl1, hl2⟩ := leap_tables y
  have htab := tables y mi l h0 h1 hl1 hl2
  have hb : 0 ≤ daysBeforeMonth y mi ∧ daysBeforeMonth y mi ≤ 335 := by
    rcases htab with h | h | h | h | h | h | h | h | h | h | h | h <;>
      obtain ⟨-, h2, -⟩ := h <;> omega
  unfold dayFromYear
  omega

theorem daysInMonth_le (y m : Int) : daysInMonth y m ≤ 31 := by
  unfold daysInMonth
  repeat' split
  all_goals omega

/-- Reading the local calendar fields of midnight UTC of a calendar date, in a zone at or
east of UTC. -/
theorem getters_of_makeDay (h : Host) (htz0 : 0 ≤ h.localTZA) (htz1 : h.localTZA < msPerDay)
    (y mi dd : Int) (h0 : 0 ≤ mi) (h1 : mi ≤ 11) (hd1 : 1 ≤ dd)
    (hd2 : dd ≤ daysInMonth y (mi + 1)) :
    getFullYear h (some (makeDate (makeDay y mi dd) 0)) = some y ∧
    getMonth h (some (makeDate (makeDay y mi dd) 0)) = some mi ∧
    getDate h (some (makeDate (makeDay y mi dd) 0)) = some dd := by
  have hday := (local_day h (makeDay y mi dd) htz0 htz1).1
  obtain ⟨hy, hm, hd⟩ := civil_roundtrip y mi dd _ h0 h1 hd1 hd2 hday
  simp [getFullYear, getMonth, getDate, hy, hm, hd]

theorem setFullYear_of_makeDay (h : Host) (htz0 : 0 ≤ h.localTZA)
    (htz1 : h.localTZA < msPerDay) (y mi dd : Int) (hy0 : 0 ≤ y) (hy1 : y ≤ 9999)
    (h0 : 0 ≤ mi) (h1 : mi ≤ 11) (hd1 : 1 ≤ dd) (hd2 : dd ≤ daysInMonth y (mi + 1)) :
    setFullYear h (some (makeDate (makeDay y mi dd) 0)) (some (y + 1)) =
      some (makeDate (makeDay (y + 1) mi dd) 0) := by
  obtain ⟨hday, htod⟩ := local_day h (makeDay y mi dd) htz0 htz1
  obtain ⟨-, hm, hd⟩ := civil_roundtrip y mi dd _ h0 h1 hd1 hd2 hday
  have hle := daysInMonth_le y (mi + 1)
  obtain ⟨hb1, hb2⟩ := makeDay_bounds (y + 1) mi dd (by omega) (by omega) h0 h1 hd1 (by omega)
  unfold setFullYear
  simp only [hm, hd, htod]
  have hu : utc h (makeDate (makeDay (y + 1) mi dd) h.localTZA) =
      makeDate (makeDay (y + 1) mi dd) 0 := by
    unfold utc makeDate; omega
  rw [hu]
  apply timeClip_some <;> unfold makeDate msPerDay <;> omega

theorem leap_next (y : Int) (h : daysInYear y = 366) : daysInYear (y + 1) = 365 := by
  unfold daysInYear at *
  repeat' split at h
  all_goals (repeat' split)
  all_goals omega

/-- In a zone whose local time is at or ahead of UTC by less than a day,
`calculateEndDate` maps a calendar date `YYYY-MM-DD` to the same day and month of the
next year, and 29 February to 1 March of the next year. -/
theorem calculateEndDate_of_parse (h : Host) (htz0 : 0 ≤ h.localTZA)
    (htz1 : h.localTZA < msPerDay) (s : String) (y m d : Int)
    (hp : parseIsoDate s = some (y, m, d)) :
    PetitionGenerator.calculateEndDate h s =
      if m = 2 ∧ d = 29 then "01.03." ++ toString (y + 1)
      else padStart2 (toString d) ++ "." ++ padStart2 (toString m) ++ "." ++
        toString (y + 1) := by
  obtain ⟨hs, hy0, hy1, hm1, hm2, hd1, hd2⟩ := parseIsoDate_some s y m d hp
  have hd2' : d ≤ daysInMonth y (m - 1 + 1) := by rw [Int.sub_add_cancel]; exact hd2
  have hle := daysInMonth_le y m
  obtain ⟨hb1, hb2⟩ := makeDay_bounds y (m - 1) d hy0 (by omega) (by omega) (by omega) hd1
    (by omega)
  have hof : ofString h s = some (makeDate (makeDay y (m - 1) d) 0) := by
    unfold ofString parse
    rw [hp]
    apply timeClip_some <;> unfold makeDate msPerDay <;> omega
  obtain ⟨hgy, -, -⟩ := getters_of_makeDay h htz0 htz1 y (m - 1) d (by omega) (by omega) hd1 hd2'
  have hset := setFullYear_of_makeDay h htz0 htz1 y (m - 1) d hy0 hy1 (by omega) (by omega)
    hd1 hd2'
  unfold PetitionGenerator.calculateEndDate
  rw [if_neg hs]
  simp only [hof, hgy, Option.map_some', hset]
  by_cases hfeb : m = 2 ∧ d = 29
  · obtain ⟨rfl, rfl⟩ := hfeb
    have hleap : daysInYear y = 366 := by
      unfold daysInMonth at hd2
      by_contra hne
      simp [hne] at hd2
    have hnext := leap_next y hleap
    have hmk : makeDay (y + 1) (2 - 1) 29 = makeDay (y + 1) 2 1 := by
      rw [makeDay_eq _ _ _ (by omega) (by omega), makeDay_eq _ _ _ (by omega) (by omega)]
      unfold daysBeforeMonth
      simp [hnext]
      omega
    rw [hmk]
    obtain ⟨g1, g2, g3⟩ := getters_of_makeDay h htz0 htz1 (y + 1) 2 1 (by omega) (by omega)
      (by omega) (by unfold daysInMonth; simp)
    rw [g1, g2, g3]
    have e : padStart2 (toString (1 : Int)) ++ "." ++ padStart2 (toString ((2 : Int) + 1)) ++ "."
        = "01.03." := by decide
    simp only [numberToString, Option.map_some']
    rw [e]
    simp
  · rw [if_neg hfeb]
    have hd3 : d ≤ daysInMonth (y + 1) (m - 1 + 1) := by
      rw [Int.sub_add_cancel]
      unfold daysInMonth at hd2 ⊢
      by_cases hm : m = 2
      · subst hm
        have : d ≠ 29 := fun h => hfeb ⟨rfl, h⟩
        simp only [if_true] at hd2 ⊢
        split at hd2 <;> split <;> omega
      · simp only [hm, if_false] at hd2 ⊢
        exact hd2
    obtain ⟨g1, g2, g3⟩ := getters_of_makeDay h htz0 htz1 (y + 1) (m - 1) d (by omega)
      (by omega) hd1 hd3
    rw [g1, g2, g3]
    simp [numberToString]

theorem calculateEndDate_of_parse_witness :
    (0 : Int) ≤ hostIstanbul.localTZA ∧ hostIstanbul.localTZA < JSDate.msPerDay ∧
    JSDate.parseIsoDate "2025-06-15" = some (2025, 6, 15) ∧
    PetitionGenerator.calculateEndDate hostIstanbul "2025-06-15" =
      (if (6 : Int) = 2 ∧ (15 : Int) = 29 then "01.03." ++ toString ((2025 : Int) + 1)
      else padStart2 (toString (15 : Int)) ++ "." ++ padStart2 (toString (6 : Int)) ++ "." ++
        toString ((2025 : Int) + 1)) :=
  ⟨by decide, by decide, by decide,
    calculateEndDate_of_parse hostIstanbul (by decide) (by decide) "2025-06-15" 2025 6 15
      (by decide)⟩

theorem calculateEndDate_examples :
    PetitionGenerator.calculateEndDate hostIstanbul "2025-06-15" = "15.06.2026" ∧
    PetitionGenerator.calculateEndDate hostIstanbul "2024-02-29" = "01.03.2025" ∧
    PetitionGenerator.calculateEndDate hostIstanbul "" = "" := by
  decide

/-- C4, the code at the failing input: where local time is five hours behind UTC,
`calculateEndDate("2025-06-15")` is `14.06.2026`, not `15.06.2026`, and
`calculateEndDate("2024-02-29")` is `28.02.2025`, not `01.03.2025`: the string is read as
midnight UTC, which is the evening before in local time, and the fields are then taken
from local time. -/
theorem calculateEndDate_westOfUTC :
    JSDate.ofString hostMinusFive "2025-06-15" = some 1749945600000 ∧
    JSDate.getDate hostMinusFive (JSDate.ofString hostMinusFive "2025-06-15") = some 14 ∧
    PetitionGenerator.calculateEndDate hostMinusFive "2025-06-15" = "14.06.2026" ∧
    PetitionGenerator.calculateEndDate hostMinusFive "2024-02-29" = "28.02.2025" := by
  decide

end DateLemmas

/-! ## The checklist -/

theorem getOwn_defineOwn_same (o : JSObject) (k : String) (v : JSValue) :
    (JSObject.defineOwn o k v).getOwn k = some v := by
  induction o with
  | nil => simp [JSObject.defineOwn, JSObject.getOwn]
  | cons kv rest ih =>
    obtain ⟨k1, w⟩ := kv
    by_cases hk : k1 = k
    · simp [JSObject.defineOwn, JSObject.getOwn, hk]
    · simp [JSObject.defineOwn, JSObject.getOwn, hk, ih]

theorem getOwn_defineOwn_other (o : JSObject) (k k2 : String) (v : JSValue) (hne : k2 ≠ k) :
    (JSObject.defineOwn o k v).getOwn k2 = o.getOwn k2 := by
  induction o with
  | nil => simp [JSObject.defineOwn, JSObject.getOwn, Ne.symm hne]
  | cons kv rest ih =>
    obtain ⟨k1, w⟩ := kv
    by_cases hk : k1 = k
    · subst hk
      simp [JSObject.defineOwn, JSObject.getOwn, Ne.symm hne]
    · by_cases hk2 : k1 = k2
      · subst hk2
        simp [JSObject.defineOwn, JSObject.getOwn, hk]
      · simp [JSObject.defineOwn, JSObject.getOwn, hk, hk2, ih]

theorem set_eq_defineOwn (o : JSObject) (k : String) (b : Bool)
    (h : k = "__proto__" → (o.getOwn k).isSome = true) :
    JSObject.set o k b = o.defineOwn k (.bool b) := by
  unfold JSObject.set
  cases hown : o.getOwn k with
  | some v => rfl
  | none =>
    by_cases hk : k = "__proto__"
    · have := h hk
      rw [hown] at this
      exact absurd this (by simp)
    · simp [hk]

theorem getOwn_set_same (o : JSObject) (k : String) (b : Bool)
    (h : k = "__proto__" → (o.getOwn k).isSome = true) :
    (JSObject.set o k b).getOwn k = some (.bool b) := by
  rw [set_eq_defineOwn o k b h, getOwn_defineOwn_same]

theorem get_set_same (o : JSObject) (k : String) (b : Bool)
    (h : k = "__proto__" → (o.getOwn k).isSome = true) :
    (JSObject.set o k b).get k = .bool b := by
  unfold JSObject.get
  rw [getOwn_set_same o k b h]

theorem getOwn_set_other (o : JSObject) (k k2 : String) (b : Bool) (hne : k2 ≠ k) :
    (JSObject.set o k b).getOwn k2 = o.getOwn k2 := by
  unfold JSObject.set
  cases o.getOwn k with
  | some v => exact getOwn_defineOwn_other o k k2 _ hne
  | none =>
    by_cases hk : k = "__proto__"
    · simp [hk]
    · simp only [hk, if_false]
      exact getOwn_defineOwn_other o k k2 _ hne

theorem get_set_other (o : JSObject) (k k2 : String) (b : Bool) (hne : k2 ≠ k) :
    (JSObject.set o k b).get k2 = o.get k2 := by
  unfold JSObject.get
  rw [getOwn_set_other o k k2 b hne]

theorem get_nil_not_true (s : String) : (JSObject.get [] s).strictEqualsTrue = false := by
  unfold JSObject.get
  simp only [JSObject.getOwn]
  split <;> rfl

theorem toggle_state (json : JsonCodec) (self : ChecklistManager) (ls : Storage)
    (stepId : String) :
    (ChecklistManager.toggle json self ls stepId).self.state =
      self.state.set stepId (!(self.state.get stepId).toBoolean) := rfl

theorem toggle_get_same (json : JsonCodec) (self : ChecklistManager) (ls : Storage)
    (stepId : String) (h : stepId = "__proto__" → (self.state.getOwn stepId).isSome = true) :
    (ChecklistManager.toggle json self ls stepId).self.state.get stepId =
      .bool (!(self.state.get stepId).toBoolean) := by
  rw [toggle_state, get_set_same _ _ _ h]

theorem toggle_getOwn_same (json : JsonCodec) (self : ChecklistManager) (ls : Storage)
    (stepId : String) (h : stepId = "__proto__" → (self.state.getOwn stepId).isSome = true) :
    (ChecklistManager.toggle json self ls stepId).self.state.getOwn stepId =
      some (.bool (!(self.state.get stepId).toBoolean)) := by
  rw [toggle_state, getOwn_set_same _ _ _ h]

theorem toggle_get_other (json : JsonCodec) (self : ChecklistManager) (ls : Storage)
    (stepId s : String) (hne : s ≠ stepId) :
    (ChecklistManager.toggle json self ls stepId).self.state.get s = self.state.get s := by
  rw [toggle_state, get_set_other _ _ _ _ hne]

theorem toggleTimes_get (json : JsonCodec) (stepId : String) (n : Nat) :
    ∀ (self : ChecklistManager) (ls : Storage),
      (stepId = "__proto__" → (self.state.getOwn stepId).isSome = true) →
      ((ChecklistManager.toggleTimes json stepId (n + 1) self ls).1.state.get stepId) =
        .bool (xor (self.state.get stepId).toBoolean (decide (n % 2 = 0))) := by
  induction n with
  | zero =>
    intro self ls h
    simp only [ChecklistManager.toggleTimes, toggle_get_same json self ls stepId h]
    cases (self.state.get stepId).toBoolean <;> rfl
  | succ n ih =>
    intro self ls h
    rw [ChecklistManager.toggleTimes]
    rw [ih _ _ (fun _ => by rw [toggle_getOwn_same json self ls stepId h]; rfl),
      toggle_get_same json self ls stepId h]
    simp only [JSValue.toBoolean]
    rcases Nat.mod_two_eq_zero_or_one n with h1 | h1
    · have h2 : (n + 1) % 2 = 1 := by omega
      simp [h1, h2]
    · have h2 : (n + 1) % 2 = 0 := by omega
      simp [h1, h2]

theorem loadState_of_parse (json : JsonCodec) (ls : Storage) (key saved : String)
    (v : StateValue) (hget : ls.getItem key = some (some saved)) (hne : saved ≠ "")
    (hparse : json.parse saved = some v) :
    ChecklistManager.loadState json ls key = (v, []) := by
  unfold ChecklistManager.loadState
  simp [hget, hne, hparse]

/-- For a step whose key can be assigned (any key but `__proto__`, or one the state owns),
after `n + 1` calls of `toggle` the value of `isCompleted(stepId)` is the truthiness of
what `state[stepId]` read at the start if `n + 1` is even, and its negation if `n + 1`
is odd. -/
theorem toggleTimes_isCompleted_of_assignable (json : JsonCodec) (self : ChecklistManager)
    (ls : Storage) (stepId : String) (n : Nat)
    (h : stepId = "__proto__" → (self.state.getOwn stepId).isSome = true) :
    ChecklistManager.isCompleted (ChecklistManager.toggleTimes json stepId (n + 1) self ls).1
        stepId =
      xor (self.state.get stepId).toBoolean (decide ((n + 1) % 2 = 1)) := by
  unfold ChecklistManager.isCompleted
  rw [toggleTimes_get json stepId n self ls h]
  rcases Nat.mod_two_eq_zero_or_one n with h1 | h1
  · have h2 : (n + 1) % 2 = 1 := by omega
    cases (self.state.get stepId).toBoolean <;> simp [h1, h2, JSValue.strictEqualsTrue]
  · have h2 : (n + 1) % 2 = 0 := by omega
    cases (self.state.get stepId).toBoolean <;> simp [h1, h2, JSValue.strictEqualsTrue]

/-- When `state[stepId]` reads as `undefined` or as a boolean, and the key can be
assigned, `n` calls of `toggle` leave `isCompleted(stepId)` as it was for even `n` and
negate it for odd `n`. -/
theorem toggleTimes_isCompleted_of_boolean (json : JsonCodec) (self : ChecklistManager)
    (ls : Storage) (stepId : String) (n : Nat)
    (h : stepId = "__proto__" → (self.state.getOwn stepId).isSome = true)
    (hval : self.state.get stepId = .undefined ∨ ∃ b, self.state.get stepId = .bool b) :
    ChecklistManager.isCompleted (ChecklistManager.toggleTimes json stepId n self ls).1
        stepId =
      xor (ChecklistManager.isCompleted self stepId) (decide (n % 2 = 1)) := by
  cases n with
  | zero => simp [ChecklistManager.toggleTimes]
  | succ m =>
    rw [toggleTimes_isCompleted_of_assignable json self ls stepId m h]
    congr 1
    unfold ChecklistManager.isCompleted
    rcases hval with h1 | ⟨b, h1⟩
    · rw [h1]; rfl
    · rw [h1]; cases b <;> rfl

/-- C7, the code against the claim and against the docstring of `toggle`, "Toggle a
step's completion status".  The state that the constructor loads from the stored text
`{"step1":1}` holds the number `1` at `step1`: the step is not completed before the
call, `toggle` writes `!1`, that is `false`, and the step is still not completed after
one call; it is completed after two.  On the empty state the same happens at
`constructor`, which reads as the function inherited from `Object.prototype`: not
completed before, not completed after one call.  And the stored text `null` makes the
constructor keep `null` as the state, without a warning, so that the first read of
`state[stepId]` throws. -/
theorem toggleTimes_truthy_entry :
    (ChecklistManager.construct sampleJson
        (storageWith [(storageKey, "\x7b\"step1\":1\x7d")]) storageKey).toManager =
      some ⟨storageKey, [("step1", .number 1)]⟩ ∧
    ChecklistManager.isCompleted ⟨storageKey, [("step1", .number 1)]⟩ "step1" = false ∧
    (ChecklistManager.toggleTimes sampleJson "step1" 1 ⟨storageKey, [("step1", .number 1)]⟩
        (storageWith [(storageKey, "\x7b\"step1\":1\x7d")])).1.state =
      [("step1", .bool false)] ∧
    ChecklistManager.isCompleted
      (ChecklistManager.toggleTimes sampleJson "step1" 1 ⟨storageKey, [("step1", .number 1)]⟩
        (storageWith [(storageKey, "\x7b\"step1\":1\x7d")])).1 "step1" = false ∧
    ChecklistManager.isCompleted
      (ChecklistManager.toggleTimes sampleJson "step1" 2 ⟨storageKey, [("step1", .number 1)]⟩
        (storageWith [(storageKey, "\x7b\"step1\":1\x7d")])).1 "step1" = true ∧
    ChecklistManager.isCompleted ⟨storageKey, []⟩ "constructor" = false ∧
    ChecklistManager.isCompleted
      (ChecklistManager.toggleTimes sampleJson "constructor" 1 ⟨storageKey, []⟩
        (storageWith [])).1 "constructor" = false ∧
    ChecklistManager.loadState sampleJson (storageWith [(storageKey, "null")]) storageKey =
      (.null, []) ∧
    ChecklistManager.construct sampleJson (storageWith [(storageKey, "null")]) storageKey =
      ⟨storageKey, .null⟩ ∧
    StateValue.null.readThrows = true := by
  decide

theorem toggleAll_get_other (json : JsonCodec) (steps : List String) (s : String)
    (hs : s ∉ steps) :
    ∀ (self : ChecklistManager) (ls : Storage),
      (ChecklistManager.toggleAll json steps self ls).1.state.get s = self.state.get s := by
  induction steps with
  | nil => intro self ls; rfl
  | cons stepId rest ih =>
    intro self ls
    have hne : s ≠ stepId := fun h => hs (h ▸ List.mem_cons_self _ _)
    have hrest : s ∉ rest := fun h => hs (List.mem_cons_of_mem _ h)
    rw [ChecklistManager.toggleAll, ih hrest, toggle_get_other json self ls stepId s hne]

theorem strictEqualsTrue_iff (v : JSValue) : v.strictEqualsTrue = true ↔ v = .bool true := by
  cases v with
  | bool b => cases b <;> simp [JSValue.strictEqualsTrue]
  | _ => simp [JSValue.strictEqualsTrue]

/-- C8: `isCompleted(stepId)` is true exactly when the state holds the value `true` at
`stepId`, so that an absent entry, `false` and every non-boolean value give false;
`toggle` changes only the entry of the step it is given; hence, starting from the empty
state, after any sequence of `toggle` calls `isCompleted(s)` is false for every step `s`
that was not toggled. -/
theorem isCompleted_spec (json : JsonCodec) (self : ChecklistManager) (ls : Storage) :
    (∀ stepId : String,
      (ChecklistManager.isCompleted self stepId = true ↔ self.state.get stepId = .bool true) ∧
      (self.state.get stepId = .undefined ∨ self.state.get stepId = .bool false ∨
          (∀ b, self.state.get stepId ≠ .bool b) →
        ChecklistManager.isCompleted self stepId = false)) ∧
    (∀ stepId s : String, s ≠ stepId →
      (ChecklistManager.toggle json self ls stepId).self.state.get s = self.state.get s) ∧
    (∀ (steps : List String) (s : String), self.state = [] → s ∉ steps →
      ChecklistManager.isCompleted (ChecklistManager.toggleAll json steps self ls).1 s =
        false) := by
  refine ⟨fun stepId => ⟨strictEqualsTrue_iff _, fun hv => ?_⟩,
    fun stepId s hne => toggle_get_other json self ls stepId s hne,
    fun steps s hempty hs => ?_⟩
  · unfold ChecklistManager.isCompleted
    rcases hv with h | h | h
    · rw [h]; rfl
    · rw [h]; rfl
    · cases hg : self.state.get stepId with
      | bool b => exact absurd hg (h b)
      | _ => rfl
  · unfold ChecklistManager.isCompleted
    rw [toggleAll_get_other json steps s hs, hempty]
    exact get_nil_not_true s

theorem isCompleted_spec_witness :
    (ChecklistManager.construct sampleJson (storageWith []) storageKey).toManager =
      some ⟨storageKey, []⟩ ∧
    (⟨storageKey, []⟩ : ChecklistManager).state = [] ∧
    "step3" ∉ ["step1", "step2", "step1"] ∧
    ChecklistManager.isCompleted
      (ChecklistManager.toggleAll sampleJson ["step1", "step2", "step1"]
        ⟨storageKey, []⟩ (storageWith [])).1
      "step3" = false :=
  ⟨rfl, rfl, by decide,
    (isCompleted_spec sampleJson ⟨storageKey, []⟩
      (storageWith [])).2.2 ["step1", "step2", "step1"] "step3" rfl (by decide)⟩

theorem saveState_fails (json : JsonCodec) (self : ChecklistManager) (ls : Storage)
    (hfail : ls.setItem self.storageKey (json.stringify self.state) = none) :
    ChecklistManager.saveState json self ls = (ls, ["Failed to save checklist state:"]) := by
  unfold ChecklistManager.saveState
  rw [hfail]

/-- For a step whose key can be assigned (any key but `__proto__`, or one the state
owns), `toggle` writes at `stepId` the boolean that negates the truthiness of what
`state[stepId]` read and returns it; the state in memory holds it afterwards whatever
the storage does, in particular when `setItem` throws inside `saveState`, in which case
the storage is left as it was; so `isCompleted(stepId)` after the call is the returned
value. -/
theorem toggle_of_assignable (json : JsonCodec) (self : ChecklistManager) (ls : Storage)
    (stepId : String) (h : stepId = "__proto__" → (self.state.getOwn stepId).isSome = true) :
    (ChecklistManager.toggle json self ls stepId).returned =
      .bool (!(self.state.get stepId).toBoolean) ∧
    (self.state.get stepId = .undefined →
      (ChecklistManager.toggle json self ls stepId).returned = .bool true) ∧
    (ChecklistManager.toggle json self ls stepId).self.state.get stepId =
      (ChecklistManager.toggle json self ls stepId).returned ∧
    JSValue.bool (ChecklistManager.isCompleted
        (ChecklistManager.toggle json self ls stepId).self stepId) =
      (ChecklistManager.toggle json self ls stepId).returned ∧
    (∀ ls2 : Storage,
      (ChecklistManager.toggle json self ls2 stepId).self.state =
        (ChecklistManager.toggle json self ls stepId).self.state ∧
      (ChecklistManager.toggle json self ls2 stepId).returned =
        (ChecklistManager.toggle json self ls stepId).returned) ∧
    (ls.setItem self.storageKey
        (json.stringify (ChecklistManager.toggle json self ls stepId).self.state) = none →
      (ChecklistManager.toggle json self ls stepId).storage = ls ∧
      (ChecklistManager.toggle json self ls stepId).warnings =
        ["Failed to save checklist state:"] ∧
      (ChecklistManager.toggle json self ls stepId).self.state.get stepId =
        .bool (!(self.state.get stepId).toBoolean)) := by
  have hret : (ChecklistManager.toggle json self ls stepId).returned =
      .bool (!(self.state.get stepId).toBoolean) := toggle_get_same json self ls stepId h
  refine ⟨hret, fun habs => ?_, ?_, ?_, fun ls2 => ⟨rfl, rfl⟩, fun hfail => ?_⟩
  · rw [hret, habs]; rfl
  · rw [hret, toggle_get_same json self ls stepId h]
  · unfold ChecklistManager.isCompleted
    rw [hret, toggle_get_same json self ls stepId h]
    cases (self.state.get stepId).toBoolean <;> rfl
  · have hs := saveState_fails json (ChecklistManager.toggle json self ls stepId).self ls hfail
    refine ⟨?_, ?_, toggle_get_same json self ls stepId h⟩
    · exact congrArg Prod.fst hs
    · exact congrArg Prod.snd hs

/-- C9, the code against the claim and against the docstring of `toggle`, "@returns
{boolean} New status".  On the empty state, which the constructor builds from an empty
storage, `toggle("__proto__")` writes nothing, because the assignment of a boolean to
`__proto__` is ignored: the state stays empty, the text stored is that of the empty
object, the call returns `Object.prototype`, which is no boolean, and
`isCompleted("__proto__")` is false afterwards.  `toggle("constructor")` on the empty
state, where no entry is present, writes and returns `false`, not `true`.  A write that
throws changes none of this. -/
theorem toggle_inherited_key :
    (ChecklistManager.construct sampleJson (storageWith []) storageKey).toManager =
      some ⟨storageKey, []⟩ ∧
    (ChecklistManager.toggle sampleJson ⟨storageKey, []⟩ (storageWith [])
        "__proto__").returned = .object ∧
    (ChecklistManager.toggle sampleJson ⟨storageKey, []⟩ (storageWith [])
        "__proto__").self.state = [] ∧
    (ChecklistManager.toggle sampleJson ⟨storageKey, []⟩ (storageWith [])
        "__proto__").storage.items = [(storageKey, "\x7b\x7d")] ∧
    ChecklistManager.isCompleted
      (ChecklistManager.toggle sampleJson ⟨storageKey, []⟩ (storageWith [])
        "__proto__").self "__proto__" = false ∧
    (ChecklistManager.toggle sampleJson ⟨storageKey, []⟩ (storageFull [])
        "__proto__").returned = .object ∧
    JSObject.getOwn [] "constructor" = none ∧
    (ChecklistManager.toggle sampleJson ⟨storageKey, []⟩ (storageWith [])
        "constructor").returned = .bool false ∧
    (ChecklistManager.toggle sampleJson ⟨storageKey, []⟩ (storageWith [])
        "constructor").self.state = [("constructor", .bool false)] := by
  decide

/-! ## `getStats` -/

section FloatLemmas

open Float64

theorem roundHalfEven_le (num den N : Nat) (hden : 0 < den) (h : num ≤ N * den) :
    roundHalfEven num den ≤ N := by
  unfold roundHalfEven
  have hq : num / den ≤ N := by
    apply Nat.div_le_of_le_mul
    rw [Nat.mul_comm]; exact h
  have hdm := Nat.div_add_mod num den
  have hmod := Nat.mod_lt num hden
  by_cases hN : num / den = N
  · have hr : num % den = 0 := by
      have : den * (num / den) = N * den := by rw [hN, Nat.mul_comm]
      omega
    simp only [hr]
    rw [if_pos (by omega)]
    exact hq
  · have hlt : num / den + 1 ≤ N := by omega
    simp only []
    repeat' split
    all_goals omega

theorem bitLengthAux_zero (fuel : Nat) : bitLengthAux fuel 0 = 0 := by
  cases fuel <;> simp [bitLengthAux]

theorem bitLengthAux_spec (fuel : Nat) :
    ∀ n : Nat, n ≤ fuel →
      n < 2 ^ bitLengthAux fuel n ∧ (0 < n → 2 ^ bitLengthAux fuel n ≤ 2 * n) := by
  induction fuel with
  | zero =>
    intro n hn
    have : n = 0 := by omega
    subst this
    simp [bitLengthAux]
  | succ fuel ih =>
    intro n hn
    by_cases h0 : n = 0
    · subst h0; simp [bitLengthAux]
    · have hhalf : n / 2 ≤ fuel := by omega
      obtain ⟨h1, h2⟩ := ih (n / 2) hhalf
      simp only [bitLengthAux, if_neg h0, pow_succ]
      refine ⟨by omega, fun _ => ?_⟩
      by_cases hz : n / 2 = 0
      · have hk : bitLengthAux fuel (n / 2) = 0 := by rw [hz]; exact bitLengthAux_zero fuel
        rw [hk]
        omega
      · have := h2 (by omega)
        omega

theorem bitLength_spec (n : Nat) (hn : 0 < n) :
    n < 2 ^ bitLength n ∧ 2 ^ bitLength n ≤ 2 * n := by
  obtain ⟨h1, h2⟩ := bitLengthAux_spec n n (le_refl n)
  exact ⟨h1, h2 hn⟩

/-- The exponent found by `floorLog2` does not overshoot: `2 ^ e ≤ a / b`. -/
theorem floorLog2_lower (a b : Nat) (ha : 0 < a) (hb : 0 < b) :
    (0 ≤ floorLog2 a b → b * 2 ^ (floorLog2 a b).toNat ≤ a) ∧
    (floorLog2 a b < 0 → b ≤ a * 2 ^ (-floorLog2 a b).toNat) := by
  obtain ⟨ha1, ha2⟩ := bitLength_spec a ha
  obtain ⟨hb1, hb2⟩ := bitLength_spec b hb
  unfold floorLog2
  simp only []
  by_cases hle : bitLength b ≤ bitLength a
  · rw [if_pos hle]
    obtain ⟨k, hk⟩ : ∃ k, bitLength a = bitLength b + k := ⟨bitLength a - bitLength b, by omega⟩
    have hk' : bitLength a - bitLength b = k := by omega
    rw [hk'] 
    rw [hk, pow_add] at ha1 ha2
    by_cases hc : b * 2 ^ k ≤ a
    · rw [if_pos hc]
      refine ⟨fun _ => ?_, fun h => ?_⟩
      · simpa using hc
      · omega
    · rw [if_neg hc]
      cases k with
      | zero =>
        refine ⟨fun h => by omega, fun _ => ?_⟩
        simp at ha2 ⊢
        omega
      | succ j =>
        have e : ((j + 1 : Nat) : Int) - 1 = (j : Int) := by omega
        rw [e]
        refine ⟨fun _ => ?_, fun h => by omega⟩
        simp only [Int.toNat_ofNat]
        rw [pow_succ] at ha2
        have : b * 2 ^ j < 2 ^ bitLength b * 2 ^ j :=
          Nat.mul_lt_mul_of_pos_right hb1 (Nat.two_pow_pos _)
        nlinarith
  · rw [if_neg hle]
    obtain ⟨k, hk⟩ : ∃ k, bitLength b = bitLength a + k := ⟨bitLength b - bitLength a, by omega⟩
    have hk' : bitLength b - bitLength a = k := by omega
    have hkpos : 0 < k := by omega
    rw [hk']
    rw [hk, pow_add] at hb1 hb2
    by_cases hc : b ≤ a * 2 ^ k
    · rw [if_pos hc]
      refine ⟨fun h => by omega, fun _ => ?_⟩
      simpa using hc
    · rw [if_neg hc]
      refine ⟨fun h => by omega, fun _ => ?_⟩
      have e : (-(-(k : Int) - 1)).toNat = k + 1 := by omega
      rw [e, pow_succ]
      have : 2 ^ bitLength a * 2 ^ k ≤ 2 * a * 2 ^ k := Nat.mul_le_mul_right _ ha2
      nlinarith

/-- The exponent found by `floorLog2` does not undershoot: `a / b < 2 ^ (e + 1)`. -/
theorem floorLog2_upper (a b : Nat) (ha : 0 < a) (hb : 0 < b) :
    (0 ≤ floorLog2 a b + 1 → a < b * 2 ^ (floorLog2 a b + 1).toNat) ∧
    (floorLog2 a b + 1 < 0 → a * 2 ^ (-(floorLog2 a b + 1)).toNat < b) := by
  obtain ⟨ha1, ha2⟩ := bitLength_spec a ha
  obtain ⟨hb1, hb2⟩ := bitLength_spec b hb
  unfold floorLog2
  simp only []
  by_cases hle : bitLength b ≤ bitLength a
  · rw [if_pos hle]
    obtain ⟨k, hk⟩ : ∃ k, bitLength a = bitLength b + k := ⟨bitLength a - bitLength b, by omega⟩
    have hk' : bitLength a - bitLength b = k := by omega
    rw [hk']
    rw [hk, pow_add] at ha1 ha2
    by_cases hc : b * 2 ^ k ≤ a
    · rw [if_pos hc]
      refine ⟨fun _ => ?_, fun h => by omega⟩
      have e : ((k : Int) + 1).toNat = k + 1 := by omega
      rw [e, pow_succ]
      have : 2 ^ bitLength b * 2 ^ k ≤ 2 * b * 2 ^ k := Nat.mul_le_mul_right _ hb2
      nlinarith
    · rw [if_neg hc]
      refine ⟨fun _ => ?_, fun h => by omega⟩
      have e : ((k : Int) - 1 + 1).toNat = k := by omega
      rw [e]
      omega
  · rw [if_neg hle]
    obtain ⟨k, hk⟩ : ∃ k, bitLength b = bitLength a + k := ⟨bitLength b - bitLength a, by omega⟩
    have hk' : bitLength b - bitLength a = k := by omega
    have hkpos : 0 < k := by omega
    rw [hk']
    rw [hk, pow_add] at hb1 hb2
    by_cases hc : b ≤ a * 2 ^ k
    · rw [if_pos hc]
      obtain ⟨j, rfl⟩ : ∃ j, k = j + 1 := ⟨k - 1, by omega⟩
      rw [pow_succ] at hb2
      have hlt : a * 2 ^ j < 2 ^ bitLength a * 2 ^ j :=
        Nat.mul_lt_mul_of_pos_right ha1 (Nat.two_pow_pos _)
      cases j with
      | zero =>
        refine ⟨fun _ => ?_, fun h => by omega⟩
        have e : (-((0 + 1 : Nat) : Int) + 1).toNat = 0 := by omega
        rw [e]
        simp at hlt hb2 ⊢
        omega
      | succ i =>
        refine ⟨fun h => by omega, fun _ => ?_⟩
        have e : (-(-((i + 1 + 1 : Nat) : Int) + 1)).toNat = i + 1 := by omega
        rw [e]
        nlinarith
    · rw [if_neg hc]
      refine ⟨fun h => by omega, fun _ => ?_⟩
      have e : (-(-(k : Int) - 1 + 1)).toNat = k := by omega
      rw [e]
      omega
theorem floorLog2_le (a b K : Nat) (ha : 0 < a) (hb : 0 < b) (h : a < b * 2 ^ (K + 1)) :
    floorLog2 a b ≤ K := by
  by_contra hgt
  have hpos : 0 ≤ floorLog2 a b := by omega
  have hl := (floorLog2_lower a b ha hb).1 hpos
  obtain ⟨j, hj⟩ : ∃ j : Nat, (floorLog2 a b).toNat = K + 1 + j :=
    ⟨(floorLog2 a b).toNat - (K + 1), by omega⟩
  rw [hj, pow_add] at hl
  have : b * 2 ^ (K + 1) ≤ b * (2 ^ (K + 1) * 2 ^ j) := by
    apply Nat.mul_le_mul_left
    exact Nat.le_mul_of_pos_right _ (Nat.two_pow_pos _)
  omega

/-- Rounding to binary64 does not pass an integer bound below `2 ^ 53`. -/
theorem round53_le (a b N K : Nat) (hb : 0 < b) (h : a ≤ N * b) (hN : N < 2 ^ (K + 1))
    (hK : K ≤ 52) :
    ∃ m S : Nat, round53 a b = { mant := m, exp := -(S : Int) } ∧ m ≤ N * 2 ^ S := by
  unfold round53
  by_cases ha : a = 0
  · exact ⟨0, 0, by simp [ha], by simp⟩
  · rw [if_neg ha]
    have hlt : a < b * 2 ^ (K + 1) := by
      calc a ≤ N * b := h
        _ < 2 ^ (K + 1) * b := Nat.mul_lt_mul_of_pos_right hN hb
        _ = b * 2 ^ (K + 1) := Nat.mul_comm _ _
    have he := floorLog2_le a b K (by omega) hb hlt
    obtain ⟨S, hS⟩ : ∃ S : Nat, 52 - floorLog2 a b = (S : Int) :=
      ⟨(52 - floorLog2 a b).toNat, by omega⟩
    simp only [hS]
    rw [if_pos (by omega)]
    refine ⟨_, S, rfl, ?_⟩
    simp only [Int.toNat_ofNat]
    apply roundHalfEven_le _ _ _ hb
    calc a * 2 ^ S ≤ N * b * 2 ^ S := Nat.mul_le_mul_right _ h
      _ = N * 2 ^ S * b := by ring

/-- Whenever `c ≤ t` and `t` is positive, `Math.round((c / t) * 100)` is at most `100`. -/
theorem percentOf_le (c t : Nat) (ht : 0 < t) (hct : c ≤ t) : percentOf c t ≤ 100 := by
  unfold percentOf divNat
  obtain ⟨m, S, hx, hm⟩ := round53_le c t 1 0 ht (by omega) (by norm_num) (by omega)
  rw [hx]
  have hy : ∃ m2 S2 : Nat, mulNat { mant := m, exp := -(S : Int) } 100 =
      { mant := m2, exp := -(S2 : Int) } ∧ m2 ≤ 100 * 2 ^ S2 := by
    unfold mulNat
    by_cases hS : S = 0
    · subst hS
      simp only [Nat.cast_zero, neg_zero, le_refl, if_true, Int.toNat_zero, pow_zero,
        Nat.mul_one]
      exact round53_le (m * 100) 1 100 6 (by omega) (by simp at hm; omega) (by norm_num)
        (by omega)
    · rw [if_neg (by simp only []; omega)]
      have e : (-(-(S : Int))).toNat = S := by omega
      simp only [e]
      exact round53_le (m * 100) (2 ^ S) 100 6 (Nat.two_pow_pos _) (by omega) (by norm_num)
        (by omega)
  obtain ⟨m2, S2, hy2, hm2⟩ := hy
  rw [hy2]
  unfold mathRound
  by_cases hS : S2 = 0
  · subst hS
    simp at hm2 ⊢
    exact hm2
  · rw [if_neg (by simp only []; omega)]
    have e : (-(-(S2 : Int))).toNat = S2 := by omega
    simp only [e]
    have hpos : 0 < 2 ^ S2 := Nat.two_pow_pos _
    have : (2 * m2 + 2 ^ S2) / (2 * 2 ^ S2) < 101 := by
      rw [Nat.div_lt_iff_lt_mul (by omega)]
      omega
    omega


theorem core_upper (A B t c m m2 E R : Int) (hA : 2 ^ 52 ≤ A) (hB : 2 ^ 46 ≤ B) (ht0 : 0 < t)
    (ht : t ≤ 2 ^ 44)
    (F1a : 2 * (m * t - c * A) ≤ t)
    (F2a : 2 * (m2 * A - 100 * m * B) ≤ A)
    (hR1 : 2 * B * R ≤ 2 * m2 + B)
    (hE2 : 200 * c + t < 2 * t * (E + 1)) :
    R ≤ E := by
  by_contra hcon
  have hRE : E + 1 ≤ R := by omega
  have hBpos : 0 < B := by linarith [show (0 : Int) < 2 ^ 46 by norm_num]
  have hApos : 0 < A := by linarith [show (0 : Int) < 2 ^ 52 by norm_num]
  -- 2 m2 ≥ B (2E+1)
  have h1 : B * (2 * E + 1) ≤ 2 * m2 := by nlinarith
  -- multiply by A t
  have h2 : A * t * (B * (2 * E + 1)) ≤ A * t * (2 * m2) :=
    mul_le_mul_of_nonneg_left h1 (by positivity)
  have h3 : t * (2 * (m2 * A - 100 * m * B)) ≤ t * A :=
    mul_le_mul_of_nonneg_left F2a (le_of_lt ht0)
  have h4 : 100 * B * (2 * (m * t - c * A)) ≤ 100 * B * t :=
    mul_le_mul_of_nonneg_left F1a (by positivity)
  have h5 : A * B * (200 * c + t + 1) ≤ A * B * (2 * t * (E + 1)) :=
    mul_le_mul_of_nonneg_left (by omega) (by positivity)
  have h6 : A * B ≤ t * (A + 100 * B) := by nlinarith
  have h7 : t * (A + 100 * B) < A * B := by
    have e1 : (A - 100 * t) * (B - t) ≥ (2 ^ 52 - 100 * 2 ^ 44) * (2 ^ 46 - 2 ^ 44) := by
      apply mul_le_mul <;> linarith
    have e2 : t * t ≤ 2 ^ 44 * 2 ^ 44 := by
      apply mul_le_mul <;> linarith
    nlinarith
  linarith

theorem core_lower (A B t c m m2 E R : Int) (hA : 2 ^ 52 ≤ A) (hB : 2 ^ 46 ≤ B) (ht0 : 0 < t)
    (ht : t ≤ 2 ^ 44)
    (F1b : 2 * (c * A - m * t) ≤ t)
    (F2b : 2 * (100 * m * B - m2 * A) ≤ A)
    (hR2 : 2 * m2 + B < 2 * B * (R + 1))
    (hE1 : 2 * t * E ≤ 200 * c + t) :
    E ≤ R + 1 ∧ (2 * t * E < 200 * c + t → E ≤ R) := by
  have hBpos : 0 < B := by linarith [show (0 : Int) < 2 ^ 46 by norm_num]
  have hApos : 0 < A := by linarith [show (0 : Int) < 2 ^ 52 by norm_num]
  have h3 : t * (2 * (100 * m * B - m2 * A)) ≤ t * A :=
    mul_le_mul_of_nonneg_left F2b (le_of_lt ht0)
  have h4 : 100 * B * (2 * (c * A - m * t)) ≤ 100 * B * t :=
    mul_le_mul_of_nonneg_left F1b (by positivity)
  -- 200 c A B ≤ 100 t B + A t + 2 m2 A t
  have h5 : 200 * c * A * B ≤ 100 * t * B + A * t + 2 * m2 * A * t := by nlinarith
  constructor
  · by_contra hcon
    have hRE : R + 2 ≤ E := by omega
    have h1 : 2 * m2 + B + 1 ≤ 2 * B * (E - 1) := by nlinarith
    have h2 : A * t * (2 * m2 + B + 1) ≤ A * t * (2 * B * (E - 1)) :=
      mul_le_mul_of_nonneg_left h1 (by positivity)
    have h6 : A * B * (2 * t * E) ≤ A * B * (200 * c + t) :=
      mul_le_mul_of_nonneg_left hE1 (by positivity)
    have h8 : A * B * t ≤ 50 * t * B := by nlinarith
    have h9 : 50 * (t * B) < A * (t * B) := by
      apply mul_lt_mul_of_pos_right _ (by positivity)
      linarith [show (50 : Int) < 2 ^ 52 by norm_num]
    nlinarith
  · intro htie
    by_contra hcon
    have hRE : R + 1 ≤ E := by omega
    have h1 : 2 * m2 + B + 1 ≤ 2 * B * E := by nlinarith
    have h2 : A * t * (2 * m2 + B + 1) ≤ A * t * (2 * B * E) :=
      mul_le_mul_of_nonneg_left h1 (by positivity)
    have h6 : A * B * (2 * t * E + 1) ≤ A * B * (200 * c + t) :=
      mul_le_mul_of_nonneg_left (by omega) (by positivity)
    have h8 : A * B ≤ 100 * t * B := by nlinarith
    have h9 : 100 * t * B < A * B := by
      apply mul_lt_mul_of_pos_right _ hBpos
      have : (100 : Int) * 2 ^ 44 < 2 ^ 52 := by norm_num
      linarith
    linarith

theorem roundHalfEven_near (num den : Nat) (hden : 0 < den) :
    2 * num ≤ (2 * roundHalfEven num den + 1) * den ∧
    2 * roundHalfEven num den * den ≤ 2 * num + den := by
  have hdm := Nat.div_add_mod num den
  have hmod := Nat.mod_lt num hden
  have e1 : (2 * (num / den) + 1) * den = 2 * (den * (num / den)) + den := by ring
  have e2 : (2 * (num / den + 1) + 1) * den = 2 * (den * (num / den)) + 3 * den := by ring
  have e3 : 2 * (num / den) * den = 2 * (den * (num / den)) := by ring
  have e4 : 2 * (num / den + 1) * den = 2 * (den * (num / den)) + 2 * den := by ring
  unfold roundHalfEven
  simp only []
  repeat' split
  all_goals (first | rw [e1, e3] | rw [e2, e4])
  all_goals omega

/-- What `round53` returns on a positive quotient bounded by an integer below `2 ^ 53`:
the scale `2 ^ S` used and the nearness of the scaled mantissa. -/
theorem round53_spec (a b N K : Nat) (hb : 0 < b) (ha : 0 < a) (h : a ≤ N * b)
    (hN : N < 2 ^ (K + 1)) (hK : K ≤ 52) :
    ∃ m S : Nat, round53 a b = { mant := m, exp := -(S : Int) } ∧ 52 ≤ S + K ∧
      2 * (a * 2 ^ S) ≤ (2 * m + 1) * b ∧ 2 * m * b ≤ 2 * (a * 2 ^ S) + b := by
  unfold round53
  rw [if_neg (by omega)]
  have hlt : a < b * 2 ^ (K + 1) := by
    calc a ≤ N * b := h
      _ < 2 ^ (K + 1) * b := Nat.mul_lt_mul_of_pos_right hN hb
      _ = b * 2 ^ (K + 1) := Nat.mul_comm _ _
  have he := floorLog2_le a b K ha hb hlt
  obtain ⟨S, hS⟩ : ∃ S : Nat, 52 - floorLog2 a b = (S : Int) :=
    ⟨(52 - floorLog2 a b).toNat, by omega⟩
  simp only [hS]
  rw [if_pos (by omega)]
  simp only [Int.toNat_ofNat]
  obtain ⟨n1, n2⟩ := roundHalfEven_near (a * 2 ^ S) b hb
  exact ⟨_, S, rfl, by omega, n1, n2⟩

/-- For at most `2 ^ 44` steps, `Math.round((c / t) * 100)` never exceeds the exact
percentage rounded half up, falls short of it by at most one, and equals it unless the
exact percentage lies exactly halfway between two integers. -/
theorem percentOf_near (c t : Nat) (ht : 0 < t) (ht44 : t ≤ 2 ^ 44) (hct : c ≤ t) :
    percentOf c t ≤ exactPercent c t ∧ exactPercent c t ≤ percentOf c t + 1 ∧
    ((200 * c + t) % (2 * t) ≠ 0 → percentOf c t = exactPercent c t) := by
  by_cases hc : c = 0
  · subst hc
    have e0 : percentOf 0 t = 0 := by
      simp [percentOf, divNat, round53, mulNat, mathRound]
    have e1 : exactPercent 0 t = 0 := by
      unfold exactPercent
      simp only [Nat.mul_zero, Nat.zero_add]
      rw [Nat.div_eq_zero_iff (by omega)]
      omega
    rw [e0, e1]; simp
  have hcpos : 0 < c := Nat.pos_of_ne_zero hc
  obtain ⟨m, S, hx, hS, F1a, F1b⟩ :=
    round53_spec c t 1 0 ht hcpos (by omega) (by norm_num) (by omega)
  have hA : 2 ^ 52 ≤ 2 ^ S := Nat.pow_le_pow_right (by norm_num) (by omega)
  have hSpos : 0 < S := by omega
  have hmpos : 0 < m := by
    by_contra hm0
    have : m = 0 := by omega
    subst this
    simp only [Nat.mul_zero, Nat.zero_add, Nat.one_mul] at F1a
    have h1 : 2 ^ S ≤ c * 2 ^ S := Nat.le_mul_of_pos_left _ hcpos
    have : (2:Nat) ^ 44 < 2 ^ 52 := by norm_num
    omega
  have hm1 : m ≤ 2 ^ S := by
    by_contra hgt
    have h2 : (2 ^ S + 1) * t ≤ m * t := Nat.mul_le_mul_right _ (by omega)
    have h3 : c * 2 ^ S ≤ t * 2 ^ S := Nat.mul_le_mul_right _ hct
    have e : (2 ^ S + 1) * t = t * 2 ^ S + t := by ring
    have e2 : 2 * m * t = 2 * (m * t) := by ring
    omega
  obtain ⟨m2, S2, hy, hS2, F2a, F2b⟩ :=
    round53_spec (m * 100) (2 ^ S) 100 6 (Nat.two_pow_pos _) (by omega) (by omega)
      (by norm_num) (by omega)
  have hB : 2 ^ 46 ≤ 2 ^ S2 := Nat.pow_le_pow_right (by norm_num) (by omega)
  have hS2pos : 0 < S2 := by omega
  have hp : percentOf c t = (2 * m2 + 2 ^ S2) / (2 * 2 ^ S2) := by
    unfold percentOf divNat
    rw [hx]
    unfold mulNat
    rw [if_neg (by simp only []; omega)]
    have e : (-(-(S : Int))).toNat = S := by omega
    simp only [e]
    rw [hy]
    unfold mathRound
    rw [if_neg (by simp only []; omega)]
    have e2 : (-(-(S2 : Int))).toNat = S2 := by omega
    simp only [e2]
  have hBpos : 0 < 2 * 2 ^ S2 := by have := Nat.two_pow_pos S2; omega
  have hR1 := Nat.div_mul_le_self (2 * m2 + 2 ^ S2) (2 * 2 ^ S2)
  have hR2 := Nat.lt_div_mul_add hBpos (a := 2 * m2 + 2 ^ S2)
  have hE1 := Nat.div_mul_le_self (200 * c + t) (2 * t)
  have hE2 := Nat.lt_div_mul_add (show 0 < 2 * t by omega) (a := 200 * c + t)
  rw [← hp] at hR1 hR2
  have hEdef : exactPercent c t = (200 * c + t) / (2 * t) := rfl
  rw [← hEdef] at hE1 hE2
  generalize percentOf c t = R at *
  generalize exactPercent c t = E at *
  generalize hAA : 2 ^ S = A at *
  generalize hBB : 2 ^ S2 = B at *
  have htie : (200 * c + t) % (2 * t) ≠ 0 → 2 * t * E < 200 * c + t := by
    intro hne
    have hdm := Nat.div_add_mod (200 * c + t) (2 * t)
    rw [← hEdef] at hdm
    have := Nat.pos_of_ne_zero hne
    omega
  have iA : (2 : Int) ^ 52 ≤ (A : Int) := by exact_mod_cast hA
  have iB : (2 : Int) ^ 46 ≤ (B : Int) := by exact_mod_cast hB
  have it0 : (0 : Int) < (t : Int) := by exact_mod_cast ht
  have it : (t : Int) ≤ 2 ^ 44 := by exact_mod_cast ht44
  have iF1a : 2 * ((m : Int) * t - c * A) ≤ t := by
    have := F1b; zify at this; linarith
  have iF1b : 2 * ((c : Int) * A - m * t) ≤ t := by
    have := F1a; zify at this; linarith
  have iF2a : 2 * ((m2 : Int) * A - 100 * m * B) ≤ A := by
    have := F2b; zify at this; linarith
  have iF2b : 2 * (100 * (m : Int) * B - m2 * A) ≤ A := by
    have := F2a; zify at this; linarith
  have iR1 : 2 * (B : Int) * R ≤ 2 * m2 + B := by
    have := hR1; zify at this; linarith
  have iR2 : 2 * (m2 : Int) + B < 2 * B * (R + 1) := by
    have := hR2; zify at this; linarith
  have iE1 : 2 * (t : Int) * E ≤ 200 * c + t := by
    have := hE1; zify at this; linarith
  have iE2 : 200 * (c : Int) + t < 2 * t * (E + 1) := by
    have := hE2; zify at this; linarith
  have hup := core_upper A B t c m m2 E R iA iB it0 it iF1a iF2a iR1 iE2
  obtain ⟨hlow1, hlow2⟩ := core_lower A B t c m m2 E R iA iB it0 it iF1b iF2b iR2 iE1
  refine ⟨by exact_mod_cast hup, by exact_mod_cast hlow1, fun hne => ?_⟩
  have h1 := htie hne
  have h2 : (E : Int) ≤ R := hlow2 (by zify at h1; linarith)
  have h3 : E ≤ R := by exact_mod_cast h2
  have h4 : R ≤ E := by exact_mod_cast hup
  omega

theorem percentOf_small :
    ∀ t, t < 40 → ∀ c, c < t + 1 → 0 < t → percentOf c t = exactPercent c t := by
  decide!

theorem completed_eq_countP (o : JSObject) :
    (o.values.filter JSValue.strictEqualsTrue).length =
      o.countP (fun kv => decide (kv.2 = JSValue.bool true)) := by
  induction o with
  | nil => rfl
  | cons kv rest ih =>
    obtain ⟨k, v⟩ := kv
    simp only [JSObject.values, List.map_cons, List.filter_cons, List.countP_cons] at ih ⊢
    by_cases hv : v = JSValue.bool true
    · subst hv
      simp [JSValue.strictEqualsTrue, ih]
    · have hs : v.strictEqualsTrue = false := by
        cases hb : v.strictEqualsTrue
        · rfl
        · exact absurd ((strictEqualsTrue_iff v).mp hb) hv
      simp [hs, hv, ih]

/-- C10, the claim as stated fails: with 23 of 40 steps completed the exact percentage is
57.5, which rounds half up to 58, while `getStats(40)` gives 57, because the Number
`(23 / 40) * 100` is `57.49999999999999`. -/
theorem getStats_not_exact :
    (ChecklistManager.getStats ⟨storageKey, stateWith 40 23⟩ 40).completed = 23 ∧
    (ChecklistManager.getStats ⟨storageKey, stateWith 40 23⟩ 40).percentage = .finite 57 ∧
    exactPercent 23 40 = 58 ∧
    Float64.mulNat (Float64.divNat 23 40) 100 =
      { mant := 8092405580431359, exp := -47 } ∧
    (8092405580431359 : Nat) < 115 * 2 ^ 46 := by
  decide

/-- C10 as amended: `getStats(totalSteps)` returns `completed` = the number of keys whose
value is exactly `true` and `total = totalSteps`; for `totalSteps > 0` the percentage is
`Math.round` of the double-precision Number `(completed / totalSteps) * 100`; whenever
moreover `completed ≤ totalSteps`, it lies between 0 and 100; it then (for at most
`2 ^ 44` steps) never exceeds the exact quotient `100 * completed / totalSteps` rounded to
the nearest integer with halves up, is at most one below it, and equals it unless the
exact quotient is exactly halfway between two integers; for `totalSteps < 40` it always
equals it. -/
theorem getStats_spec (self : ChecklistManager) (totalSteps : Nat) :
    (ChecklistManager.getStats self totalSteps).completed =
      self.state.countP (fun kv => decide (kv.2 = JSValue.bool true)) ∧
    (ChecklistManager.getStats self totalSteps).total = totalSteps ∧
    (0 < totalSteps →
      (ChecklistManager.getStats self totalSteps).percentage =
        .finite (percentOf (ChecklistManager.getStats self totalSteps).completed totalSteps) ∧
      ((ChecklistManager.getStats self totalSteps).completed ≤ totalSteps →
        percentOf (ChecklistManager.getStats self totalSteps).completed totalSteps ≤ 100 ∧
        (totalSteps ≤ 2 ^ 44 →
          percentOf (ChecklistManager.getStats self totalSteps).completed totalSteps ≤
            exactPercent (ChecklistManager.getStats self totalSteps).completed totalSteps ∧
          exactPercent (ChecklistManager.getStats self totalSteps).completed totalSteps ≤
            percentOf (ChecklistManager.getStats self totalSteps).completed totalSteps + 1 ∧
          ((200 * (ChecklistManager.getStats self totalSteps).completed + totalSteps) %
              (2 * totalSteps) ≠ 0 →
            percentOf (ChecklistManager.getStats self totalSteps).completed totalSteps =
              exactPercent (ChecklistManager.getStats self totalSteps).completed
                totalSteps)) ∧
        (totalSteps < 40 →
          percentOf (ChecklistManager.getStats self totalSteps).completed totalSteps =
            exactPercent (ChecklistManager.getStats self totalSteps).completed
              totalSteps))) := by
  refine ⟨completed_eq_countP self.state, rfl,
    fun ht => ⟨?_, fun hle => ⟨?_, fun h44 => ?_, fun hlt => ?_⟩⟩⟩
  · unfold ChecklistManager.getStats percentOf
    simp only [if_neg (Nat.pos_iff_ne_zero.mp ht)]
  · exact percentOf_le _ _ ht hle
  · exact percentOf_near _ _ ht h44 hle
  · exact percentOf_small totalSteps hlt _ (by omega) ht

theorem getStats_spec_witness :
    0 < 8 ∧ (ChecklistManager.getStats ⟨storageKey, stateWith 8 1⟩ 8).completed ≤ 8 ∧
    8 ≤ 2 ^ 44 ∧ 8 < 40 ∧
    (ChecklistManager.getStats ⟨storageKey, stateWith 8 1⟩ 8).percentage = .finite 13 ∧
    percentOf (ChecklistManager.getStats ⟨storageKey, stateWith 8 1⟩ 8).completed 8 ≤ 100 ∧
    percentOf (ChecklistManager.getStats ⟨storageKey, stateWith 8 1⟩ 8).completed 8 ≤
      exactPercent (ChecklistManager.getStats ⟨storageKey, stateWith 8 1⟩ 8).completed 8 ∧
    percentOf (ChecklistManager.getStats ⟨storageKey, stateWith 8 1⟩ 8).completed 8 =
      exactPercent (ChecklistManager.getStats ⟨storageKey, stateWith 8 1⟩ 8).completed 8 :=
  ⟨by decide, by decide, by decide, by decide, by decide,
    (((getStats_spec ⟨storageKey, stateWith 8 1⟩ 8).2.2 (by decide)).2 (by decide)).1,
    ((((getStats_spec ⟨storageKey, stateWith 8 1⟩ 8).2.2 (by decide)).2 (by decide)).2.1
      (by decide)).1,
    (((getStats_spec ⟨storageKey, stateWith 8 1⟩ 8).2.2 (by decide)).2 (by decide)).2.2
      (by decide)⟩

end FloatLemmas

/-! ## `formatDate` -/

theorem splitChars_of_not_mem (sep : Char) (cs : List Char) (h : sep ∉ cs) :
    splitChars sep cs = [cs] := by
  induction cs with
  | nil => rfl
  | cons c cs ih =>
    have hc : c ≠ sep := fun e => h (e ▸ List.mem_cons_self _ _)
    have hcs : sep ∉ cs := fun e => h (List.mem_cons_of_mem _ e)
    simp [splitChars, hc, ih hcs]

theorem splitChars_append_sep (sep : Char) (a rest : List Char) (h : sep ∉ a) :
    splitChars sep (a ++ sep :: rest) = a :: splitChars sep rest := by
  induction a with
  | nil => simp [splitChars]
  | cons c cs ih =>
    have hc : c ≠ sep := fun e => h (e ▸ List.mem_cons_self _ _)
    have hcs : sep ∉ cs := fun e => h (List.mem_cons_of_mem _ e)
    simp [splitChars, hc, ih hcs]

/-- C11: for a string made of three components separated by `-` (no component itself
containing `-`), `formatDate` returns the third, the second and the first component
joined by `.`, whatever the components are: no calendar check is made, so
`formatDate("2026-01-01")` is `01.01.2026` and `formatDate("2026-13-45")` is
`45.13.2026`; the empty string gives the empty string. -/
theorem formatDate_spec (year month day : String) (hy : '-' ∉ year.toList)
    (hm : '-' ∉ month.toList) (hd : '-' ∉ day.toList) :
    PetitionGenerator.formatDate (year ++ "-" ++ month ++ "-" ++ day) =
      day ++ "." ++ month ++ "." ++ year ∧
    PetitionGenerator.formatDate "2026-01-01" = "01.01.2026" ∧
    PetitionGenerator.formatDate "2026-13-45" = "45.13.2026" ∧
    PetitionGenerator.formatDate "" = "" := by
  refine ⟨?_, by decide, by decide, by decide⟩
  have hl : (year ++ "-" ++ month ++ "-" ++ day).toList =
      year.toList ++ '-' :: (month.toList ++ '-' :: day.toList) := by
    simp [String.toList]
  have hne : year ++ "-" ++ month ++ "-" ++ day ≠ "" := by
    intro h
    have := congrArg String.toList h
    rw [hl] at this
    simp at this
  unfold PetitionGenerator.formatDate
  rw [if_neg hne]
  simp only [hl, splitChars_append_sep _ _ _ hy, splitChars_append_sep _ _ _ hm,
    splitChars_of_not_mem _ _ hd]
  rfl

theorem formatDate_spec_witness :
    '-' ∉ "2026".toList ∧ '-' ∉ "01".toList ∧ '-' ∉ "31".toList ∧
    PetitionGenerator.formatDate ("2026" ++ "-" ++ "01" ++ "-" ++ "31") =
      "31" ++ "." ++ "01" ++ "." ++ "2026" :=
  ⟨by decide, by decide, by decide,
    (formatDate_spec "2026" "01" "31" (by decide) (by decide) (by decide)).1⟩

end GencGirisimciler
